import Mathlib

/-!
Verification development for the CMOR compliance checker
(`esmvalcore/cmor/check.py`).

The Python class `CMORCheck` is embedded shallowly: the checker object
state (cube, error list, warning list) becomes an explicit `CheckerState`
threaded through every method, the constructor arguments that are never
mutated (`var_info`, `frequency`, `fail_on_error`, `automatic_fixes`)
become a `CheckerConfig`, and a raised Python exception becomes the
`Except.error` branch of the result.  Because raising an exception in
Python does not roll back mutations already performed on the checker or
the cube, every method returns both the `Except` outcome and the state
reached at the moment of the raise.

External collaborators (iris cubes and coordinates, cf_units) are
modelled as plain data: a cube is a record of its name, units,
attributes and coordinate list; a unit is a record of its string form,
calendar, time-reference flag and, for time units, the affine map to
the fixed epoch "days since 1950-01-01".  The date (`cell`) view of a
time coordinate, from which the source reads only `.month` and `.year`,
is carried as a list of month/year pairs; it is invariant under unit
conversion since a conversion changes the reference epoch, not the time
instants themselves.
-/

/-- Python exceptions that can escape the checker: the checker's own
`CMORCheckError`, an uncaught `ValueError` (for example from `float`),
and iris' `CoordinateNotFoundError`. -/
inductive PyExn where
  | cmorCheckError (msg : String)
  | valueError (msg : String)
  | coordinateNotFoundError (name : String)
deriving DecidableEq, Repr

/-- Model of a `cf_units.Unit` value: its string form (`str(unit)`), its
calendar (`None` for non-time units), whether it is a time-reference
unit, and for time-reference units the affine map sending a stored
point to days since 1950-01-01 00:00:00 (conversion between two time
units of the same calendar is affine). -/
structure UnitsRec where
  uname : String
  calendar : Option String
  timeRef : Bool
  scaleToDays : Rat
  offsetDays : Rat
deriving DecidableEq, Repr

/-- A non-time unit with the given string form. -/
def plainUnit (n : String) : UnitsRec :=
  { uname := n, calendar := none, timeRef := false, scaleToDays := 1, offsetDays := 0 }

/-- The month/year view of one cell of a time coordinate: the only two
fields the source reads from `coord.cell(i).point`. -/
structure MonthYear where
  month : Nat
  year : Int
deriving DecidableEq, Repr

/-- Model of an iris coordinate: var_name, standard_name (`none` for
Python `None`), units, points, the cell (date) view of the points,
the number of dimensions of the coordinate array (`coord.ndim`), the
cube data dimensions it spans (`cube.coord_dims(coord)`), and whether
it is a dimension coordinate. -/
structure Coord where
  var_name : String
  standard_name : Option String
  units : UnitsRec
  points : List Rat
  cells : List MonthYear
  ndim : Nat
  dims : List Nat
  is_dim_coord : Bool
deriving DecidableEq, Repr

/-- Model of an iris cube: name data, units, free-form attributes and
the list of its coordinates (dimension and auxiliary), plus the data
dimensionality `cube.ndim`. -/
structure Cube where
  var_name : String
  standard_name : Option String
  units : UnitsRec
  attributes : List (String × String)
  coords : List Coord
  ndim : Nat
deriving DecidableEq, Repr

/-- One coordinate entry of a CMOR variable specification
(`table.CoordinateInfo`).  String fields use `""` for an unset value,
mirroring the Python attributes and their truthiness tests; the numeric
bounds, stored in the tables as decimal strings and read through
`float(...)`, are modelled directly as optional rationals. -/
structure CoordinateInfo where
  cname : String
  standard_name : String
  out_name : String
  cunits : String
  stored_direction : String
  generic_level : Bool
  valid_min : Option Rat
  valid_max : Option Rat
  requested : List Rat
  value : String
deriving DecidableEq, Repr

/-- The CMOR variable specification (`table.VariableInfo`): the fields
the checker reads.  String fields use `""` for unset. -/
structure VariableInfo where
  standard_name : String
  vunits : String
  positive : String
  frequency : String
  coordinates : List CoordinateInfo
deriving DecidableEq, Repr

/-- The constructor arguments of `CMORCheck` that are never mutated. -/
structure CheckerConfig where
  cmor_var : VariableInfo
  frequency : String
  failerr : Bool
  automatic_fixes : Bool
deriving DecidableEq, Repr

/-- The mutable state of a `CMORCheck` object: the borrowed cube and the
two accumulation lists, plus a log modelling the logger / stdout side
channels (messages emitted there, in order). -/
structure CheckerState where
  cube : Cube
  errors : List String
  warnings : List String
  log : List String
deriving DecidableEq, Repr

/-- The checker method monad: state threading with Python-style
exceptions.  The state component is returned also in the error case,
because raising in Python does not undo mutations. -/
def CheckM (α : Type) : Type := CheckerState → Except PyExn α × CheckerState

def pureM {α : Type} (a : α) : CheckM α := fun s => (Except.ok a, s)

def bindM {α β : Type} (m : CheckM α) (k : α → CheckM β) : CheckM β := fun s =>
  match m s with
  | (Except.ok a, s2) => k a s2
  | (Except.error e, s2) => (Except.error e, s2)

def seqM (m k : CheckM Unit) : CheckM Unit := bindM m (fun _ => k)

def getS : CheckM CheckerState := fun s => (Except.ok s, s)

def modifyS (f : CheckerState → CheckerState) : CheckM Unit := fun s => (Except.ok (), f s)

def raiseM {α : Type} (e : PyExn) : CheckM α := fun s => (Except.error e, s)

/-- Run a checker method on each element of a list in order (Python
`for` loop over `seq`); an exception aborts the remaining iterations. -/
def forEachM {α : Type} (f : α → CheckM Unit) : List α → CheckM Unit
  | [] => pureM ()
  | x :: xs => seqM (f x) (forEachM f xs)

/-- Model of `'{}'.format(cube)`: the cube description embedded in error
messages.  The exact repr text is an external iris detail; what matters
is that it is a function of the cube. -/
def cubeDesc (c : Cube) : String := "<cube " ++ c.var_name ++ ">"

/-- `'{}'.format(x)` for an optional string (`None` prints as `None`). -/
def optStr : Option String → String
  | none => "None"
  | some s => s

/-- Python `str.lower()` (ASCII; the tokens involved are ASCII). -/
def strLower (s : String) : String := String.mk (s.data.map Char.toLower)

/-- Whether `pat` is a prefix of the second list. -/
def charsPrefixEq : List Char → List Char → Bool
  | [], _ => true
  | _ :: _, [] => false
  | a :: as, b :: bs => a = b ∧ charsPrefixEq as bs

/-- Whether `pat` occurs as a contiguous subsequence. -/
def containsSeq (pat : List Char) : List Char → Bool
  | [] => charsPrefixEq pat []
  | c :: cs => charsPrefixEq pat (c :: cs) ∨ containsSeq pat cs

/-- Python `str.endswith`. -/
def strEndsWith (s t : String) : Bool := charsPrefixEq t.data.reverse s.data.reverse

/-- `'{}'.format(q)` for a rational argument (Python formats a float;
the printed form of the number is a modelled detail). -/
def ratStr (q : Rat) : String :=
  if q.den = 1 then q.num.repr else q.num.repr ++ "/" ++ Nat.repr q.den

/-- `attributes.get(key, '')`. -/
def attrGetD (c : Cube) (key : String) : String :=
  match c.attributes.lookup key with
  | none => ""
  | some v => v

/-- `del attributes[key]`. -/
def delAttr (c : Cube) (key : String) : Cube :=
  { c with attributes := c.attributes.filter (fun p => p.1 ≠ key) }

/- The five message templates of the class, pre-applied to their
positional arguments (`str.format` is plain substitution). -/

def attr_msg (a b c d : String) : String :=
  a ++ ": " ++ b ++ " should be " ++ c ++ ", not " ++ d

def does_msg (a b : String) : String := a ++ ": does not " ++ b

def is_msg (a b : String) : String := a ++ ": is not " ++ b

def vals_msg (a b c : String) : String := a ++ ": has values " ++ b ++ " " ++ c

def contain_msg (a b c : String) : String := a ++ ": does not contain " ++ b ++ " " ++ c

/-- `CMORCheck.has_errors`: `len(self._errors) > 0`. -/
def has_errors (s : CheckerState) : Bool := decide (0 < s.errors.length)

/-- `CMORCheck.has_warnings`: `len(self._warnings) > 0`. -/
def has_warnings (s : CheckerState) : Bool := decide (0 < s.warnings.length)

/-- `CMORCheck.report_error`: format the message; with `fail_on_error`
raise a `CMORCheckError` carrying the message and the cube description
(the append to the error list is unreachable after the raise); otherwise
append the message to the error list. -/
def report_error (cfg : CheckerConfig) (msg : String) : CheckM Unit := fun s =>
  if cfg.failerr then
    (Except.error (PyExn.cmorCheckError (msg ++ "\nin cube:\n" ++ cubeDesc s.cube)), s)
  else
    (Except.ok (), { s with errors := s.errors ++ [msg] })

/-- `CMORCheck.report_warning`: with `fail_on_error` print the message
(side channel, modelled by the log; never raises); otherwise append it
to the warning list. -/
def report_warning (cfg : CheckerConfig) (msg : String) : CheckM Unit := fun s =>
  if cfg.failerr then
    (Except.ok (), { s with log := s.log ++ ["WARNING: " ++ msg] })
  else
    (Except.ok (), { s with warnings := s.warnings ++ [msg] })

/-- `CMORCheck.report_errors`: if any errors are pending, raise one
`CMORCheckError` carrying the variable name, the accumulated messages
joined by newline-space, and the cube description. -/
def report_errors (cfg : CheckerConfig) : CheckM Unit := fun s =>
  if has_errors s then
    (Except.error (PyExn.cmorCheckError
        ("There were errors in variable " ++ s.cube.var_name ++ ":\n"
          ++ String.intercalate "\n " s.errors ++ "\nin cube:\n" ++ cubeDesc s.cube)), s)
  else (Except.ok (), s)

/-- `CMORCheck.report_warnings`: if any warnings are pending, emit one
summary message to the logger (modelled by the log). -/
def report_warnings (cfg : CheckerConfig) : CheckM Unit := fun s =>
  if has_warnings s then
    (Except.ok (), { s with log := s.log ++
      ["There were warnings in variable " ++ s.cube.var_name ++ ":\n"
        ++ String.intercalate "\n " s.warnings ++ "\n"] })
  else (Except.ok (), s)

/-- `cube.coord(var_name=v)` (and with `dim_coords=True` when `dimOnly`):
first coordinate whose var_name matches, restricted to dimension
coordinates when requested.  Returns `none` where iris raises
`CoordinateNotFoundError`. -/
def findCoordVar (c : Cube) (v : String) (dimOnly : Bool) : Option Coord :=
  c.coords.find? (fun k => k.var_name = v ∧ (dimOnly = false ∨ k.is_dim_coord = true))

/-- `cube.coord(name)` (and with `dim_coords=True` when `dimOnly`):
iris name matching tries the standard name first and falls back to the
var_name. -/
def findCoordName (c : Cube) (n : String) (dimOnly : Bool) : Option Coord :=
  match c.coords.find? (fun k =>
      k.standard_name = some n ∧ (dimOnly = false ∨ k.is_dim_coord = true)) with
  | some k => some k
  | none => c.coords.find? (fun k =>
      k.var_name = n ∧ (dimOnly = false ∨ k.is_dim_coord = true))

/-- `cube.coord_dims(name)`: the data dimensions spanned by the named
coordinate; `none` where iris raises `CoordinateNotFoundError`. -/
def coordDimsByName (c : Cube) (n : String) : Option (List Nat) :=
  (findCoordName c n false).map (fun k => k.dims)

/-- Replace (in place) the first coordinate matching the given var_name
among dimension coordinates; models mutation of a coordinate object
obtained from `cube.coord(var_name=v, dim_coords=True)`. -/
def updateCoordVarDim (c : Cube) (v : String) (k2 : Coord) : Cube :=
  let f : Coord → Option Coord :=
    fun k => if k.var_name = v ∧ k.is_dim_coord = true then some k2 else none
  { c with coords := c.coords.replaceF f }

/-- Replace (in place) the first coordinate found by `findCoordName`
with `dim_coords=True`; models mutation of the time coordinate object. -/
def updateCoordNameDim (c : Cube) (n : String) (k2 : Coord) : Cube :=
  let fstd : Coord → Option Coord :=
    fun k => if k.standard_name = some n ∧ (true = false ∨ k.is_dim_coord = true)
      then some k2 else none
  let fvar : Coord → Option Coord :=
    fun k => if k.var_name = n ∧ (true = false ∨ k.is_dim_coord = true)
      then some k2 else none
  match c.coords.find? (fun k =>
      k.standard_name = some n ∧ (true = false ∨ k.is_dim_coord = true)) with
  | some _ => { c with coords := c.coords.replaceF fstd }
  | none => { c with coords := c.coords.replaceF fvar }

/-- Model of the cf_units dimension of a unit string: two unit strings
are convertible exactly when they have the same dimension.  The table
covers the unit vocabulary exercised here; `none` means the string does
not parse as a unit. -/
def unitDimName (u : String) : Option String :=
  if u = "1" ∨ u = "1.0" ∨ u = "%" then some "dimensionless"
  else if u = "K" ∨ u = "degC" then some "temperature"
  else if u = "m" ∨ u = "km" then some "length"
  else if u = "Pa" ∨ u = "hPa" then some "pressure"
  else if u = "degrees_east" ∨ u = "degrees_north" ∨ u = "degrees" then some "angle"
  else if u = "kg m-2 s-1" then some "mass flux"
  else if containsSeq " since ".data u.data then some "time reference"
  else none

/-- `unit.is_convertible(target)` for a unit record against a target
unit string (modelled external cf_units capability). -/
def unitsConvertible (u : UnitsRec) (target : String) : Bool :=
  match unitDimName u.uname, unitDimName target with
  | some a, some b => a = b
  | _, _ => false

/-- Conversion factor between two convertible non-time unit strings
(modelled external cf_units capability; same-dimension pairs not listed
convert with factor 1, equal strings always with factor 1). -/
def unitConvFactor (u target : String) : Rat :=
  if u = "m" ∧ target = "km" then 1 / 1000
  else if u = "km" ∧ target = "m" then 1000
  else if u = "Pa" ∧ target = "hPa" then 1 / 100
  else if u = "hPa" ∧ target = "Pa" then 100
  else 1

/-- Whether a unit string is a time-reference unit (contains `since`). -/
def isTimeRefName (u : String) : Bool := containsSeq " since ".data u.data

/-- `iris.util.reverse(cube, dims)`: reverse the data along the given
dimensions; every coordinate spanning one of them has its points (and
its cell view) reversed. -/
def reverseCube (c : Cube) (ds : List Nat) : Cube :=
  { c with coords := c.coords.map (fun k =>
      if k.dims.any (fun d => ds.contains d) then
        { k with points := k.points.reverse, cells := k.cells.reverse }
      else k) }

/-- Floor of a rational (used for the 0–360 longitude wrap). -/
def ratFloor (q : Rat) : Int := Int.fdiv q.num (Int.ofNat q.den)

/-- Wrap a longitude point into [0, 360). -/
def wrap360 (p : Rat) : Rat := p - 360 * ((ratFloor (p / 360) : Int) : Rat)

/-- `cube.intersection(CoordExtent(coord, 0.0, 360., True, False))`:
the longitude re-wrap.  Modelled pointwise: every point of the selected
coordinate is wrapped into [0, 360) (the accompanying cyclic roll of
the data is not observed by any later check modelled here). -/
def intersectLon (c : Cube) (v : String) : Cube :=
  { c with coords := c.coords.map (fun k =>
      if k.var_name = v ∧ k.is_dim_coord = true then
        { k with points := k.points.map wrap360 }
      else k) }

/-- Model of Python `float(s)` on a decimal literal: optional sign,
digits with an optional fractional part, surrounding whitespace
allowed; `none` where Python raises `ValueError`. -/
def digitsVal : List Char → Option Nat
  | [] => none
  | cs => cs.foldl (fun acc ch =>
      match acc with
      | none => none
      | some n => if ch.isDigit then some (n * 10 + (ch.toNat - 48)) else none)
      (some 0)

/-- Parse an unsigned decimal numeral (digits, optional point). -/
def parseUnsigned (cs : List Char) : Option Rat :=
  match cs.splitOn '.' with
  | [ipart] => (digitsVal ipart).map (fun n => (n : Rat))
  | [ipart, fpart] =>
      if ipart.isEmpty ∧ fpart.isEmpty then none
      else
        match (if ipart.isEmpty then some 0 else digitsVal ipart),
              (if fpart.isEmpty then some 0 else digitsVal fpart) with
        | some i, some f => some ((i : Rat) + (f : Rat) / ((10 : Rat) ^ fpart.length))
        | _, _ => none
  | _ => none

/-- Python `str.strip()` restricted to spaces. -/
def trimSpaces (cs : List Char) : List Char :=
  ((cs.dropWhile (fun ch => ch = ' ')).reverse.dropWhile (fun ch => ch = ' ')).reverse

/-- `float(s)` (see `parseUnsigned`). -/
def pyFloat (s : String) : Option Rat :=
  match trimSpaces s.data with
  | [] => none
  | '-' :: rest => (parseUnsigned rest).map (fun q => -q)
  | '+' :: rest => parseUnsigned rest
  | cs => parseUnsigned cs

/-- `CMORCheck._simplify_calendar`. -/
def simplify_calendar (calendar : String) : String :=
  if calendar = "all_leap" then "366_day"
  else if calendar = "noleap" then "365_day"
  else if calendar = "standard" then "gregorian"
  else calendar

/-- `coord.is_monotonic()`: the points do not decrease or do not
increase (modelled external iris capability). -/
def pairwiseLe : List Rat → Bool
  | a :: b :: r => a ≤ b ∧ pairwiseLe (b :: r)
  | _ => true

/-- See `pairwiseLe`. -/
def pairwiseGe : List Rat → Bool
  | a :: b :: r => b ≤ a ∧ pairwiseGe (b :: r)
  | _ => true

/-- See `pairwiseLe`. -/
def isMonotonic (pts : List Rat) : Bool := pairwiseLe pts ∨ pairwiseGe pts

/-- `CMORCheck._get_effective_units`: substitute the dimensionless unit
string for the legacy case-insensitive token `psu`. -/
def get_effective_units (cfg : CheckerConfig) : String :=
  if strLower cfg.cmor_var.vunits = "psu" then "1.0" else cfg.cmor_var.vunits

/-- Standard-name part of `CMORCheck._check_var_metadata`. -/
def check_standard_name (cfg : CheckerConfig) : CheckM Unit :=
  bindM getS (fun s =>
    if cfg.cmor_var.standard_name ≠ "" then
      if s.cube.standard_name ≠ some cfg.cmor_var.standard_name then
        report_error cfg (attr_msg s.cube.var_name "standard_name"
          cfg.cmor_var.standard_name (optStr s.cube.standard_name))
      else pureM ()
    else pureM ())

/-- Legacy `invalid_units == 'psu'` repair of
`CMORCheck._check_var_metadata`: with automatic fixes, force the cube
unit to dimensionless and drop the attribute. -/
def check_psu_fix (cfg : CheckerConfig) : CheckM Unit :=
  bindM getS (fun s =>
    if cfg.automatic_fixes = true ∧ strLower (attrGetD s.cube "invalid_units") = "psu" then
      modifyS (fun st =>
        { st with cube :=
            { delAttr st.cube "invalid_units" with units := plainUnit "1.0" } })
    else pureM ())

/-- Units-convertibility part of `CMORCheck._check_var_metadata`. -/
def check_units_convertible (cfg : CheckerConfig) : CheckM Unit :=
  bindM getS (fun s =>
    if cfg.cmor_var.vunits ≠ "" then
      if unitsConvertible s.cube.units (get_effective_units cfg) = false then
        report_error cfg ("Variable " ++ s.cube.var_name ++ " units "
          ++ s.cube.units.uname ++ " can not be converted to " ++ cfg.cmor_var.vunits)
      else pureM ()
    else pureM ())

/-- Tracked-attribute (`positive`) part of
`CMORCheck._check_var_metadata`: missing attribute is a warning, a
mismatched value an error. -/
def check_positive_attr (cfg : CheckerConfig) : CheckM Unit :=
  bindM getS (fun s =>
    if cfg.cmor_var.positive ≠ "" then
      match s.cube.attributes.lookup "positive" with
      | none => report_warning cfg (s.cube.var_name ++ ": attribute positive not present")
      | some v =>
          if v ≠ cfg.cmor_var.positive then
            report_error cfg (attr_msg s.cube.var_name "positive" cfg.cmor_var.positive v)
          else pureM ()
    else pureM ())

/-- `CMORCheck._check_var_metadata`. -/
def check_var_metadata (cfg : CheckerConfig) : CheckM Unit :=
  seqM (check_standard_name cfg)
    (seqM (check_psu_fix cfg)
      (seqM (check_units_convertible cfg) (check_positive_attr cfg)))

/-- `CMORCheck._check_fill_value`: documented no-op. -/
def check_fill_value (cfg : CheckerConfig) : CheckM Unit := pureM ()

/-- One iteration of the loop of `CMORCheck._check_dim_names`. -/
def check_dim_name (cfg : CheckerConfig) (ci : CoordinateInfo) : CheckM Unit :=
  bindM getS (fun s =>
    if ci.generic_level then pureM ()
    else
      match findCoordVar s.cube ci.out_name false with
      | some cc =>
          if cc.standard_name ≠ some ci.standard_name then
            report_error cfg (attr_msg ci.out_name "standard_name"
              ci.standard_name (optStr cc.standard_name))
          else pureM ()
      | none =>
          match findCoordName s.cube ci.standard_name false with
          | some c2 =>
              report_error cfg ("Coordinate " ++ ci.cname ++ " has var name "
                ++ c2.var_name ++ " instead of " ++ ci.out_name)
          | none => report_error cfg (does_msg ci.cname "exist"))

/-- `CMORCheck._check_dim_names`. -/
def check_dim_names (cfg : CheckerConfig) : CheckM Unit :=
  forEachM (check_dim_name cfg) cfg.cmor_var.coordinates

/-- `CMORCheck._check_rank`: one rank unit per generic-level
coordinate, plus the number of distinct cube dimensions spanned by the
non-generic, non-scalar specification coordinates that are found on the
cube. -/
def rankOf (cfg : CheckerConfig) (c : Cube) : Nat :=
  let genCount := (cfg.cmor_var.coordinates.filter (fun ci => ci.generic_level = true)).length
  let collect : List Nat :=
    cfg.cmor_var.coordinates.foldl (fun acc ci =>
      if ci.generic_level = false ∧ ci.value = "" then
        match coordDimsByName c ci.standard_name with
        | some ds => acc ++ ds
        | none => acc
      else acc) []
  genCount + collect.eraseDups.length

/-- See `rankOf`. -/
def check_rank (cfg : CheckerConfig) : CheckM Unit :=
  bindM getS (fun s =>
    if s.cube.ndim ≠ rankOf cfg s.cube then
      report_error cfg (does_msg s.cube.var_name "match coordinate rank")
    else pureM ())

/-- `CMORCheck._reverse_coord`: reverse the cube along the dimensions
of a one-dimensional coordinate. -/
def reverse_coord (coord : Coord) : CheckM Unit :=
  if coord.ndim = 1 then
    modifyS (fun st => { st with cube := reverseCube st.cube coord.dims })
  else pureM ()

/-- Direction branch of
`CMORCheck._check_coord_monotonicity_and_direction` for one declared
direction: on a mismatch of the first two points, error when fixes are
disabled or the coordinate is multidimensional, otherwise reverse. -/
def direction_step (cfg : CheckerConfig) (coord : Coord) (var_name : String)
    (mismatch : Rat → Rat → Bool) (dirword : String) : CheckM Unit :=
  match coord.points with
  | p0 :: p1 :: _ =>
      if mismatch p0 p1 then
        if cfg.automatic_fixes = false ∨ coord.ndim > 1 then
          report_error cfg (is_msg var_name dirword)
        else reverse_coord coord
      else pureM ()
  | _ => raiseM (PyExn.valueError "IndexError: index out of bounds")

/-- `CMORCheck._check_coord_monotonicity_and_direction`. -/
def check_coord_monotonicity_and_direction (cfg : CheckerConfig)
    (ci : CoordinateInfo) (coord : Coord) (var_name : String) : CheckM Unit :=
  seqM
    (if isMonotonic coord.points = false then
      report_error cfg (is_msg var_name "monotonic")
    else pureM ())
    (if coord.points.length = 1 then pureM ()
    else if ci.stored_direction ≠ "" then
      if ci.stored_direction = "increasing" then
        direction_step cfg coord var_name (fun a b => decide (b < a)) "increasing"
      else if ci.stored_direction = "decreasing" then
        direction_step cfg coord var_name (fun a b => decide (a < b)) "decreasing"
      else pureM ()
    else pureM ())

/-- The `try: cf_units.Unit(cmor.units, coord.units.calendar);
coord.convert_units(...)` block of `CMORCheck._check_coord`: `none`
models the caught `ValueError` (a calendar supplied for a
non-time-reference target unit, or a failed conversion); `some` is the
coordinate converted in place. -/
def tryConvertCoordUnits (coord : Coord) (target : String) : Option Coord :=
  match coord.units.calendar with
  | some _ => none
  | none =>
      if unitsConvertible coord.units target then
        let f := unitConvFactor coord.units.uname target
        some { coord with units := plainUnit target,
                          points := coord.points.map (fun p => p * f) }
      else none

/-- Units part of `CMORCheck._check_coord`: when the specification
declares units differing from the coordinate's, convert in place when
automatic fixes are enabled and possible, otherwise report a units
mismatch.  Returns the coordinate object as the remaining checks see
it. -/
def coord_units_step (cfg : CheckerConfig) (ci : CoordinateInfo)
    (coord : Coord) (var_name : String) : CheckM Coord :=
  if ci.cunits ≠ "" ∧ coord.units.uname ≠ ci.cunits then
    if cfg.automatic_fixes then
      match tryConvertCoordUnits coord ci.cunits with
      | some c2 =>
          bindM (modifyS (fun st =>
            { st with cube := updateCoordVarDim st.cube var_name c2 }))
            (fun _ => pureM c2)
      | none =>
          bindM (report_error cfg (attr_msg var_name "units" ci.cunits coord.units.uname))
            (fun _ => pureM coord)
    else
      bindM (report_error cfg (attr_msg var_name "units" ci.cunits coord.units.uname))
        (fun _ => pureM coord)
  else pureM coord

/-- `CMORCheck._check_requested_values`: a requested value missing from
the coordinate points (exact match) is a warning. -/
def check_requested_values (cfg : CheckerConfig) (ci : CoordinateInfo)
    (coord : Coord) (var_name : String) : CheckM Unit :=
  if ci.requested ≠ [] then
    forEachM (fun p =>
        if coord.points.contains p then pureM ()
        else report_warning cfg (contain_msg var_name (ratStr p) coord.units.uname))
      ci.requested
  else pureM ()

/-- `valid_min` branch of `CMORCheck._check_coord_values`: returns the
`l_fix_coord_value` contribution. -/
def valid_min_step (cfg : CheckerConfig) (ci : CoordinateInfo)
    (coord : Coord) (var_name : String) : CheckM Bool :=
  match ci.valid_min with
  | none => pureM false
  | some vmin =>
      if coord.points.any (fun p => decide (p < vmin)) then
        if ci.standard_name = "longitude" ∧ cfg.automatic_fixes = true then pureM true
        else
          bindM (report_error cfg (vals_msg var_name "< valid_min =" (ratStr vmin)))
            (fun _ => pureM false)
      else pureM false

/-- `valid_max` branch of `CMORCheck._check_coord_values`. -/
def valid_max_step (cfg : CheckerConfig) (ci : CoordinateInfo)
    (coord : Coord) (var_name : String) : CheckM Bool :=
  match ci.valid_max with
  | none => pureM false
  | some vmax =>
      if coord.points.any (fun p => decide (vmax < p)) then
        if ci.standard_name = "longitude" ∧ cfg.automatic_fixes = true then pureM true
        else
          bindM (report_error cfg (vals_msg var_name "> valid_max =" (ratStr vmax)))
            (fun _ => pureM false)
      else pureM false

/-- `CMORCheck._check_coord_values`: requested values, then the value
range; an out-of-range longitude with automatic fixes triggers the
0-360 intersection instead of an error. -/
def check_coord_values (cfg : CheckerConfig) (ci : CoordinateInfo)
    (coord : Coord) (var_name : String) : CheckM Unit :=
  seqM (check_requested_values cfg ci coord var_name)
    (bindM (valid_min_step cfg ci coord var_name) (fun f1 =>
      bindM (valid_max_step cfg ci coord var_name) (fun f2 =>
        if f1 ∨ f2 then
          modifyS (fun st => { st with cube := intersectLon st.cube var_name })
        else pureM ())))

/-- `CMORCheck._check_coord`: the coordinate named `time` is exempt;
units check (with in-place repair), value checks, and — only when
automatic fixes are disabled — the inline monotonicity/direction
check. -/
def check_coord (cfg : CheckerConfig) (ci : CoordinateInfo)
    (coord : Coord) (var_name : String) : CheckM Unit :=
  if coord.var_name = "time" then pureM ()
  else
    bindM (coord_units_step cfg ci coord var_name) (fun c2 =>
      seqM (check_coord_values cfg ci c2 var_name)
        (if cfg.automatic_fixes = false then
          check_coord_monotonicity_and_direction cfg ci c2 var_name
        else pureM ()))

/-- One iteration of `CMORCheck._check_coords`: generic-level
coordinates are skipped, as are coordinates not found (by out_name,
among dimension coordinates). -/
def check_coords_entry (cfg : CheckerConfig) (ci : CoordinateInfo) : CheckM Unit :=
  bindM getS (fun s =>
    if ci.generic_level then pureM ()
    else
      match findCoordVar s.cube ci.out_name true with
      | none => pureM ()
      | some coord => check_coord cfg ci coord ci.out_name)

/-- `CMORCheck._check_coords`. -/
def check_coords (cfg : CheckerConfig) : CheckM Unit :=
  forEachM (check_coords_entry cfg) cfg.cmor_var.coordinates

/-- One iteration of `CMORCheck._check_coords_data`: re-run the
monotonicity/direction check in the data phase. -/
def check_coords_data_entry (cfg : CheckerConfig) (ci : CoordinateInfo) : CheckM Unit :=
  bindM getS (fun s =>
    if ci.generic_level then pureM ()
    else
      match findCoordVar s.cube ci.out_name true with
      | none => pureM ()
      | some coord => check_coord_monotonicity_and_direction cfg ci coord ci.out_name)

/-- `CMORCheck._check_coords_data`. -/
def check_coords_data (cfg : CheckerConfig) : CheckM Unit :=
  forEachM (check_coords_data_entry cfg) cfg.cmor_var.coordinates

/-- The normalization step of `CMORCheck._check_time_coord`: convert
the coordinate to `days since 1950-1-1 00:00:00` in its own calendar
(an affine map on the points; the cell view is invariant) and collapse
calendar aliases. -/
def normalizeTimeCoord (coord : Coord) : Coord :=
  { coord with
    points := coord.points.map (fun p =>
      p * coord.units.scaleToDays + coord.units.offsetDays),
    units := { uname := "days since 1950-1-1 00:00:00",
               calendar := coord.units.calendar.map simplify_calendar,
               timeRef := true, scaleToDays := 1, offsetDays := 0 } }

/-- `'{}: Frequency {} does not match input data'`. -/
def freq_error_msg (var_name freq : String) : String :=
  var_name ++ ": Frequency " ++ freq ++ " does not match input data"

/-- The expected-successor test of the `mon` loop of
`CMORCheck._check_time_coord`: `second_month`/`second_year` are the
first cell's month and year advanced by one month (13 rolls over to
January of the next year); the pair mismatches when the second cell
differs.  `mon_scan` is the loop itself: the first mismatch reports
one error and stops the scan. -/
def monMismatch (a b : MonthYear) : Prop :=
  (if a.month + 1 = 13 then 1 else a.month + 1) ≠ b.month
  ∨ (if a.month + 1 = 13 then a.year + 1 else a.year) ≠ b.year

instance (a b : MonthYear) : Decidable (monMismatch a b) :=
  inferInstanceAs (Decidable (
    (if a.month + 1 = 13 then 1 else a.month + 1) ≠ b.month
    ∨ (if a.month + 1 = 13 then a.year + 1 else a.year) ≠ b.year))

/-- See `monMismatch`. -/
def mon_scan (cfg : CheckerConfig) (var_name : String) : List MonthYear → CheckM Unit
  | a :: b :: rest =>
      if monMismatch a b then
        report_error cfg (freq_error_msg var_name cfg.frequency)
      else mon_scan cfg var_name (b :: rest)
  | _ => pureM ()

/-- The `yr` loop of `CMORCheck._check_time_coord`. -/
def yr_scan (cfg : CheckerConfig) (var_name : String) : List MonthYear → CheckM Unit
  | a :: b :: rest =>
      if a.year + 1 ≠ b.year then
        report_error cfg (freq_error_msg var_name cfg.frequency)
      else yr_scan cfg var_name (b :: rest)
  | _ => pureM ()

/-- The interval loop of `CMORCheck._check_time_coord`: each
consecutive gap must lie inside the closed target interval; the first
violation reports one error and stops the scan. -/
def interval_scan (cfg : CheckerConfig) (var_name : String) (lo hi : Rat) :
    List Rat → CheckM Unit
  | a :: b :: rest =>
      if b - a < lo ∨ hi < b - a then
        report_error cfg (freq_error_msg var_name cfg.frequency)
      else interval_scan cfg var_name lo hi (b :: rest)
  | _ => pureM ()

/-- Target interval for an `hr`-suffixed frequency token (lines
441-448 of the source): strip the `hr` suffix; the literal remainder
`sub` gets the interval `(-tol, 1/24 + tol)`, anything else is parsed
by `float` (`none` models the uncaught `ValueError`) and gets
`(n/24 - tol, n/24 + tol)`. -/
def hrTarget (freq : String) : Option (Rat × Rat) :=
  let tol : Rat := 1 / 1000
  let base := freq.dropRight 2
  if base = "sub" then some (-tol, 1 / 24 + tol)
  else
    match pyFloat base with
    | some q => some (q / 24 - tol, q / 24 + tol)
    | none => none

/-- Frequency dispatch of `CMORCheck._check_time_coord` (everything
after the unit normalization). -/
def freq_scan (cfg : CheckerConfig) (var_name : String) (coord : Coord) : CheckM Unit :=
  let tol : Rat := 1 / 1000
  if cfg.frequency = "mon" then mon_scan cfg var_name coord.cells
  else if cfg.frequency = "yr" then yr_scan cfg var_name coord.cells
  else if cfg.frequency = "dec" then
    interval_scan cfg var_name (3600 - tol) (3660 + tol) coord.points
  else if cfg.frequency = "day" then
    interval_scan cfg var_name (1 - tol) (1 + tol) coord.points
  else if strEndsWith cfg.frequency "hr" then
    match hrTarget cfg.frequency with
    | some lohi => interval_scan cfg var_name lohi.1 lohi.2 coord.points
    | none =>
        raiseM (PyExn.valueError
          ("could not convert string to float: " ++ cfg.frequency.dropRight 2))
  else
    report_error cfg (var_name ++ ": Frequency " ++ cfg.frequency
      ++ " not supported by checker")

/-- `CMORCheck._check_time_coord`: no-op when no `time` dimension
coordinate exists; non-time-reference units are an error (and the scan
then runs on the raw coordinate); otherwise the coordinate is
normalized in place and scanned. -/
def check_time_coord (cfg : CheckerConfig) : CheckM Unit :=
  bindM getS (fun s =>
    match findCoordName s.cube "time" true with
    | none => pureM ()
    | some coord =>
        if coord.units.timeRef = false then
          seqM (report_error cfg (does_msg coord.var_name "have time reference units"))
            (freq_scan cfg coord.var_name coord)
        else
          let c2 := normalizeTimeCoord coord
          seqM (modifyS (fun st =>
              { st with cube := updateCoordNameDim st.cube "time" c2 }))
            (freq_scan cfg coord.var_name c2))

/-- `coord.name()` in iris: standard name when set, else var_name (long
names are not modelled). -/
def coordPyName (k : Coord) : String :=
  match k.standard_name with
  | some s => s
  | none => k.var_name

/-- The `coords` list of `CMORCheck._add_auxiliar_time_coordinates`:
names of the auxiliary coordinates. -/
def auxCoordNames (c : Cube) : List String :=
  (c.coords.filter (fun k => k.is_dim_coord = false)).map coordPyName

/-- The auxiliary coordinate created by
`iris.coord_categorisation.add_*(cube, 'time')` (modelled external iris
capability: derived point values are not observed by any check). -/
def categorisedCoord (nm : String) (t : Coord) : Coord :=
  { var_name := nm, standard_name := none, units := plainUnit "1",
    points := [], cells := [], ndim := t.ndim, dims := t.dims, is_dim_coord := false }

/-- `iris.coord_categorisation.add_*(cube, 'time')`: raises
`CoordinateNotFoundError` when the cube has no coordinate named `time`;
otherwise appends the derived auxiliary coordinate. -/
def addCategorised (nm : String) : CheckM Unit :=
  bindM getS (fun s =>
    match findCoordName s.cube "time" false with
    | none => raiseM (PyExn.coordinateNotFoundError "time")
    | some t =>
        modifyS (fun st =>
          { st with cube :=
              { st.cube with coords := st.cube.coords ++ [categorisedCoord nm t] } }))

/-- `CMORCheck._add_auxiliar_time_coordinates`: the four derived time
coordinates, each added only when no auxiliary coordinate of that name
was present (the name list is computed once, before any addition). -/
def add_auxiliar_time_coordinates (cfg : CheckerConfig) : CheckM Unit :=
  bindM getS (fun s =>
    let names := auxCoordNames s.cube
    seqM (if names.contains "day_of_month" then pureM () else addCategorised "day_of_month")
      (seqM (if names.contains "day_of_year" then pureM () else addCategorised "day_of_year")
        (seqM (if names.contains "month_number" then pureM () else addCategorised "month_number")
          (if names.contains "year" then pureM () else addCategorised "year"))))

/-- The six sub-checks of `CMORCheck.check_metadata`, in source
order. -/
def metadata_checks (cfg : CheckerConfig) : CheckM Unit :=
  seqM (check_var_metadata cfg)
    (seqM (check_fill_value cfg)
      (seqM (check_dim_names cfg)
        (seqM (check_coords cfg)
          (seqM (check_time_coord cfg) (check_rank cfg)))))

/-- `CMORCheck.check_metadata`: run every metadata sub-check, report
warnings then errors, and only then attach the auxiliary time
coordinates. -/
def check_metadata (cfg : CheckerConfig) : CheckM Unit :=
  seqM (metadata_checks cfg)
    (seqM (report_warnings cfg)
      (seqM (report_errors cfg) (add_auxiliar_time_coordinates cfg)))

/-- State of a freshly constructed `CMORCheck` for a cube: empty error
and warning lists. -/
def initState (cube : Cube) : CheckerState :=
  { cube := cube, errors := [], warnings := [], log := [] }

/-- Construct a checker on `cube` and call `check_metadata`, which
returns `self._cube` on success. -/
def checkMetadataRun (cfg : CheckerConfig) (cube : Cube) :
    Except PyExn Cube × CheckerState :=
  match check_metadata cfg (initState cube) with
  | (Except.ok _, s) => (Except.ok s.cube, s)
  | (Except.error e, s) => (Except.error e, s)

/-- Unit-conversion step of `CMORCheck.check_data`: when the
specification declares units and the cube's differ from the effective
target, convert the cube (`cube.convert_units` raises when the units
are not convertible); performed regardless of `automatic_fixes`. -/
def convert_cube_units (cfg : CheckerConfig) : CheckM Unit :=
  bindM getS (fun s =>
    if cfg.cmor_var.vunits ≠ "" then
      if s.cube.units.uname ≠ get_effective_units cfg then
        if unitsConvertible s.cube.units (get_effective_units cfg) then
          modifyS (fun st =>
            { st with cube := { st.cube with units := plainUnit (get_effective_units cfg) } })
        else
          raiseM (PyExn.valueError ("Unable to convert from " ++ s.cube.units.uname
            ++ " to " ++ get_effective_units cfg))
      else pureM ()
    else pureM ())

/-- `CMORCheck.check_data`: unit conversion, the data-phase coordinate
checks, then warning and error reporting as in the metadata phase. -/
def check_data (cfg : CheckerConfig) : CheckM Unit :=
  seqM (convert_cube_units cfg)
    (seqM (check_coords_data cfg)
      (seqM (report_warnings cfg) (report_errors cfg)))

/-- Construct a checker on `cube` and call `check_data`. -/
def checkDataRun (cfg : CheckerConfig) (cube : Cube) :
    Except PyExn Cube × CheckerState :=
  match check_data cfg (initState cube) with
  | (Except.ok _, s) => (Except.ok s.cube, s)
  | (Except.error e, s) => (Except.error e, s)

/-! ## Shared concrete fixtures for witnesses -/

/-- A small concrete cube used by witnesses. -/
def wTimeUnits : UnitsRec :=
  { uname := "days since 1950-1-1 00:00:00", calendar := some "gregorian",
    timeRef := true, scaleToDays := 1, offsetDays := 0 }

/-- See `wTimeUnits`. -/
def wTimeCoord : Coord :=
  { var_name := "time", standard_name := some "time", units := wTimeUnits,
    points := [0, 31],
    cells := [{ month := 1, year := 1950 }, { month := 2, year := 1950 }],
    ndim := 1, dims := [0], is_dim_coord := true }

/-- See `wTimeUnits`. -/
def wLatCoord : Coord :=
  { var_name := "lat", standard_name := some "latitude",
    units := plainUnit "degrees_north", points := [10, 20], cells := [],
    ndim := 1, dims := [1], is_dim_coord := true }

/-- See `wTimeUnits`. -/
def wCiTime : CoordinateInfo :=
  { cname := "time", standard_name := "time", out_name := "time",
    cunits := "days since 1950-1-1 00:00:00", stored_direction := "increasing",
    generic_level := false, valid_min := none, valid_max := none,
    requested := [], value := "" }

/-- See `wTimeUnits`. -/
def wCiLat : CoordinateInfo :=
  { cname := "latitude", standard_name := "latitude", out_name := "lat",
    cunits := "degrees_north", stored_direction := "increasing",
    generic_level := false, valid_min := some (-90), valid_max := some 90,
    requested := [], value := "" }

/-- See `wTimeUnits`. -/
def wVinfo : VariableInfo :=
  { standard_name := "air_temperature", vunits := "K", positive := "",
    frequency := "mon", coordinates := [wCiTime, wCiLat] }

/-- Collect-all configuration over `wVinfo`. -/
def wCfg : CheckerConfig :=
  { cmor_var := wVinfo, frequency := "mon", failerr := false, automatic_fixes := false }

/-- Fail-fast configuration over `wVinfo`. -/
def wCfgFF : CheckerConfig :=
  { cmor_var := wVinfo, frequency := "mon", failerr := true, automatic_fixes := false }

/-- See `wTimeUnits`. -/
def wCube : Cube :=
  { var_name := "tas", standard_name := some "air_temperature",
    units := plainUnit "K", attributes := [], coords := [wTimeCoord, wLatCoord],
    ndim := 2 }

/-- A state carrying two accumulated errors. -/
def wStateErr : CheckerState :=
  { cube := wCube, errors := ["e1", "e2"], warnings := [], log := [] }

/-! ## C1: fail-fast versus collect-all error reporting -/

/-- C1.  For every check phase: with `fail_on_error=true` the first
call to `report_error` raises a `CMORCheckError` immediately — any
continuation (the remaining checks of the phase) is skipped and the
accumulated state is unchanged; with `fail_on_error=false`,
`report_error` never raises (every check of the phase runs to
completion) and only appends, and `report_errors`, invoked at the end
of the phase, raises a single `CMORCheckError` carrying the variable
name, all accumulated error messages and the cube description exactly
when at least one error was accumulated. -/
theorem claim_C1 (cfg : CheckerConfig) :
    (cfg.failerr = true →
      ∀ (msg : String) (k : Unit → CheckM Unit) (s : CheckerState),
        bindM (report_error cfg msg) k s =
          (Except.error (PyExn.cmorCheckError
            (msg ++ "\nin cube:\n" ++ cubeDesc s.cube)), s))
    ∧ (cfg.failerr = false →
      ∀ (msg : String) (s : CheckerState),
        report_error cfg msg s =
          (Except.ok (), { s with errors := s.errors ++ [msg] }))
    ∧ (∀ s : CheckerState, s.errors ≠ [] →
        report_errors cfg s =
          (Except.error (PyExn.cmorCheckError
            ("There were errors in variable " ++ s.cube.var_name ++ ":\n"
              ++ String.intercalate "\n " s.errors ++ "\nin cube:\n"
              ++ cubeDesc s.cube)), s))
    ∧ (∀ s : CheckerState, s.errors = [] →
        report_errors cfg s = (Except.ok (), s)) := by
  refine ⟨?_, ?_, ?_, ?_⟩
  · intro h msg k s
    simp [bindM, report_error, h]
  · intro h msg s
    simp [report_error, h]
  · intro s hne
    have hpos : 0 < s.errors.length := List.length_pos.mpr hne
    simp [report_errors, has_errors, hpos]
  · intro s hempty
    simp [report_errors, has_errors, hempty]

/-- Witness for C1 at concrete inputs: a fail-fast checker raises at
once with the state untouched, a collect-all checker appends, and
`report_errors` raises the single summary error exactly when the list
is non-empty. -/
theorem claim_C1_witness :
    (bindM (report_error wCfgFF "bad") (fun _ => report_error wCfgFF "later") wStateErr =
      (Except.error (PyExn.cmorCheckError "bad\nin cube:\n<cube tas>"), wStateErr))
    ∧ (report_error wCfg "bad" wStateErr =
      (Except.ok (), { wStateErr with errors := ["e1", "e2", "bad"] }))
    ∧ (report_errors wCfg wStateErr =
      (Except.error (PyExn.cmorCheckError
        ("There were errors in variable tas:\ne1\n e2\nin cube:\n<cube tas>")),
        wStateErr))
    ∧ (report_errors wCfg (initState wCube) = (Except.ok (), initState wCube)) := by
  refine ⟨?_, ?_, ?_, ?_⟩
  · exact (claim_C1 wCfgFF).1 rfl "bad" (fun _ => report_error wCfgFF "later") wStateErr
  · exact ((claim_C1 wCfg).2.1 rfl "bad" wStateErr)
  · exact ((claim_C1 wCfg).2.2.1 wStateErr (by simp [wStateErr]))
  · exact ((claim_C1 wCfg).2.2.2 (initState wCube) rfl)

/-! ## C9: the accumulation lists stay empty in fail-fast mode -/

/-- An arbitrary sequence of report calls on the checker. -/
inductive ReportCall where
  | errCall (msg : String)
  | warnCall (msg : String)

/-- Execute a sequence of `report_error` / `report_warning` calls (a
raise aborts the rest, as in Python). -/
def runReports (cfg : CheckerConfig) : List ReportCall → CheckM Unit
  | [] => pureM ()
  | ReportCall.errCall m :: rest => seqM (report_error cfg m) (runReports cfg rest)
  | ReportCall.warnCall m :: rest => seqM (report_warning cfg m) (runReports cfg rest)

/-- C9.  With `fail_on_error=true`, any sequence of `report_error` /
`report_warning` calls leaves the error list, the warning list and the
cube unchanged (`report_error` raises before appending, and
`report_warning` goes to the side channel), so `has_errors` and
`has_warnings` are false after any sequence of report calls started on
a fresh checker. -/
theorem claim_C9 (cfg : CheckerConfig) (h : cfg.failerr = true)
    (calls : List ReportCall) (s : CheckerState) :
    ((runReports cfg calls s).2.errors = s.errors
      ∧ (runReports cfg calls s).2.warnings = s.warnings
      ∧ (runReports cfg calls s).2.cube = s.cube)
    ∧ (s.errors = [] → s.warnings = [] →
        has_errors (runReports cfg calls s).2 = false
          ∧ has_warnings (runReports cfg calls s).2 = false) := by
  have main : ∀ (calls : List ReportCall) (s : CheckerState),
      (runReports cfg calls s).2.errors = s.errors
        ∧ (runReports cfg calls s).2.warnings = s.warnings
        ∧ (runReports cfg calls s).2.cube = s.cube := by
    intro calls
    induction calls with
    | nil => intro s; exact ⟨rfl, rfl, rfl⟩
    | cons c rest ih =>
        intro s
        cases c with
        | errCall m =>
            simp [runReports, seqM, bindM, report_error, h]
        | warnCall m =>
            have step : report_warning cfg m s =
                (Except.ok (), { s with log := s.log ++ ["WARNING: " ++ m] }) := by
              simp [report_warning, h]
            simp [runReports, seqM, bindM, step]
            exact ih { s with log := s.log ++ ["WARNING: " ++ m] }
  refine ⟨main calls s, ?_⟩
  intro he hw
  have hm := main calls s
  constructor
  · simp [has_errors, hm.1, he]
  · simp [has_warnings, hm.2.1, hw]

/-- Witness for C9: a concrete fail-fast checker run through an error
report followed by a warning report keeps both lists empty. -/
theorem claim_C9_witness :
    ((runReports wCfgFF [ReportCall.errCall "a", ReportCall.warnCall "b"]
        (initState wCube)).2.errors = []
      ∧ (runReports wCfgFF [ReportCall.errCall "a", ReportCall.warnCall "b"]
        (initState wCube)).2.warnings = [])
    ∧ (has_errors (runReports wCfgFF [ReportCall.errCall "a", ReportCall.warnCall "b"]
        (initState wCube)).2 = false) := by
  have h := claim_C9 wCfgFF rfl [ReportCall.errCall "a", ReportCall.warnCall "b"]
    (initState wCube)
  exact ⟨⟨h.1.1, h.1.2.1⟩, (h.2 rfl rfl).1⟩

/-! ## C2: stored direction mismatch — error, reversal, or multidimensional error -/

/-- C2.  For a monotonic coordinate whose specification declares a
stored direction contradicted by its first two points: with
`automatic_fixes=false` a directionality error is reported; with
`automatic_fixes=true` and a one-dimensional coordinate the cube is
reversed along the coordinate's dimensions and no error is reported;
with `automatic_fixes=true` and a multidimensional coordinate the
error is reported and no reversal happens.  Both declared directions
behave symmetrically. -/
theorem claim_C2 (cfg : CheckerConfig) (ci : CoordinateInfo) (coord : Coord)
    (var_name : String) (s : CheckerState)
    (hmono : isMonotonic coord.points = true) :
    (∀ (a b : Rat) (rest : List Rat),
      ci.stored_direction = "increasing" → coord.points = a :: b :: rest → b < a →
        ((cfg.automatic_fixes = false →
          check_coord_monotonicity_and_direction cfg ci coord var_name s =
            report_error cfg (is_msg var_name "increasing") s)
        ∧ (cfg.automatic_fixes = true → coord.ndim = 1 →
          check_coord_monotonicity_and_direction cfg ci coord var_name s =
            (Except.ok (), { s with cube := reverseCube s.cube coord.dims }))
        ∧ (cfg.automatic_fixes = true → coord.ndim > 1 →
          check_coord_monotonicity_and_direction cfg ci coord var_name s =
            report_error cfg (is_msg var_name "increasing") s)))
    ∧ (∀ (a b : Rat) (rest : List Rat),
      ci.stored_direction = "decreasing" → coord.points = a :: b :: rest → a < b →
        ((cfg.automatic_fixes = false →
          check_coord_monotonicity_and_direction cfg ci coord var_name s =
            report_error cfg (is_msg var_name "decreasing") s)
        ∧ (cfg.automatic_fixes = true → coord.ndim = 1 →
          check_coord_monotonicity_and_direction cfg ci coord var_name s =
            (Except.ok (), { s with cube := reverseCube s.cube coord.dims }))
        ∧ (cfg.automatic_fixes = true → coord.ndim > 1 →
          check_coord_monotonicity_and_direction cfg ci coord var_name s =
            report_error cfg (is_msg var_name "decreasing") s))) := by
  constructor
  · intro a b rest hdir hpts hlt
    rw [hpts] at hmono
    refine ⟨?_, ?_, ?_⟩
    · intro hfix
      simp [check_coord_monotonicity_and_direction, seqM, bindM, pureM, hmono,
        hpts, hdir, direction_step, hlt, hfix]
    · intro hfix hnd
      simp [check_coord_monotonicity_and_direction, seqM, bindM, pureM, hmono,
        hpts, hdir, direction_step, hlt, hfix, hnd, reverse_coord, modifyS]
    · intro hfix hnd
      simp [check_coord_monotonicity_and_direction, seqM, bindM, pureM, hmono,
        hpts, hdir, direction_step, hlt, hfix, hnd]
  · intro a b rest hdir hpts hlt
    rw [hpts] at hmono
    refine ⟨?_, ?_, ?_⟩
    · intro hfix
      simp [check_coord_monotonicity_and_direction, seqM, bindM, pureM, hmono,
        hpts, hdir, direction_step, hlt, hfix]
    · intro hfix hnd
      simp [check_coord_monotonicity_and_direction, seqM, bindM, pureM, hmono,
        hpts, hdir, direction_step, hlt, hfix, hnd, reverse_coord, modifyS]
    · intro hfix hnd
      simp [check_coord_monotonicity_and_direction, seqM, bindM, pureM, hmono,
        hpts, hdir, direction_step, hlt, hfix, hnd]

/-- A one-dimensional latitude coordinate stored decreasing, against a
specification that declares `increasing`. -/
def wLatRev : Coord :=
  { var_name := "lat", standard_name := some "latitude",
    units := plainUnit "degrees_north", points := [20, 10], cells := [],
    ndim := 1, dims := [0], is_dim_coord := true }

/-- A two-dimensional variant of `wLatRev`. -/
def wLatRevMulti : Coord := { wLatRev with ndim := 2, dims := [0, 1] }

/-- Automatic-fixes configuration over `wVinfo`. -/
def wCfgFix : CheckerConfig :=
  { cmor_var := wVinfo, frequency := "mon", failerr := false, automatic_fixes := true }

/-- A one-dimensional cube holding `wLatRev`. -/
def wCubeL : Cube :=
  { var_name := "tas", standard_name := some "air_temperature",
    units := plainUnit "K", attributes := [], coords := [wLatRev], ndim := 1 }

/-- Witness for C2 at concrete inputs: without fixes the `increasing`
error is appended; with fixes and a 1-D coordinate the cube is
reversed along its dimension with no error; with fixes and a 2-D
coordinate the error is appended and the cube untouched. -/
theorem claim_C2_witness :
    (check_coord_monotonicity_and_direction wCfg wCiLat wLatRev "lat" (initState wCubeL) =
      (Except.ok (), { initState wCubeL with errors := ["lat: is not increasing"] }))
    ∧ (check_coord_monotonicity_and_direction wCfgFix wCiLat wLatRev "lat" (initState wCubeL) =
      (Except.ok (), { initState wCubeL with cube :=
        { wCubeL with coords := [{ wLatRev with points := [10, 20] }] } }))
    ∧ (check_coord_monotonicity_and_direction wCfgFix wCiLat wLatRevMulti "lat" (initState wCubeL) =
      (Except.ok (), { initState wCubeL with errors := ["lat: is not increasing"] })) := by
  refine ⟨?_, ?_, ?_⟩
  · exact (((claim_C2 wCfg wCiLat wLatRev "lat" (initState wCubeL) (by rfl')).1
      20 10 [] rfl rfl (by norm_num)).1 rfl).trans (by rfl')
  · exact (((claim_C2 wCfgFix wCiLat wLatRev "lat" (initState wCubeL) (by rfl')).1
      20 10 [] rfl rfl (by norm_num)).2.1 rfl rfl).trans (by rfl')
  · exact (((claim_C2 wCfgFix wCiLat wLatRevMulti "lat" (initState wCubeL) (by rfl')).1
      20 10 [] rfl rfl (by norm_num)).2.2 rfl (by show 1 < 2; norm_num)).trans (by rfl')

/-! ## C3: monthly frequency acceptance -/

/-- Spec-side reading of "one calendar month apart": the second point
is in the next calendar month, with December of year Y followed by
January of year Y+1. -/
def oneMonthApart (a b : MonthYear) : Prop :=
  (a.month = 12 ∧ b.month = 1 ∧ b.year = a.year + 1)
  ∨ (a.month ≠ 12 ∧ b.month = a.month + 1 ∧ b.year = a.year)

instance (a b : MonthYear) : Decidable (oneMonthApart a b) :=
  inferInstanceAs (Decidable (
    (a.month = 12 ∧ b.month = 1 ∧ b.year = a.year + 1)
    ∨ (a.month ≠ 12 ∧ b.month = a.month + 1 ∧ b.year = a.year)))


/-- The pair test of the source coincides with `oneMonthApart`. -/
theorem monMismatch_iff (a b : MonthYear) :
    ¬ monMismatch a b ↔ oneMonthApart a b := by
  unfold monMismatch oneMonthApart
  by_cases h : a.month = 12
  · simp [h]
    omega
  · have h13 : ¬ (a.month + 1 = 13) := by omega
    simp [h, h13]
    omega

/-- C3.  The `mon` scan accepts a cell series exactly when every
consecutive pair is one calendar month apart: on a chained series it
returns with the state untouched; on any series containing a violating
pair it behaves as a single `report_error` of the frequency message
performed on the entry state (one error, at the first violating pair,
nothing after it scanned); and with frequency `mon` the
time-coordinate check is exactly this scan over the time coordinate's
cells (which the unit normalization leaves unchanged). -/
theorem claim_C3 (cfg : CheckerConfig) (var_name : String) :
    (∀ (cells : List MonthYear) (s : CheckerState),
      List.Chain' oneMonthApart cells →
        mon_scan cfg var_name cells s = (Except.ok (), s))
    ∧ (∀ (cells : List MonthYear) (s : CheckerState),
      ¬ List.Chain' oneMonthApart cells →
        mon_scan cfg var_name cells s =
          report_error cfg (freq_error_msg var_name cfg.frequency) s)
    ∧ (cfg.frequency = "mon" →
      ∀ (s : CheckerState) (t : Coord),
        findCoordName s.cube "time" true = some t → t.units.timeRef = true →
          check_time_coord cfg s =
            mon_scan cfg t.var_name t.cells
              { s with cube := updateCoordNameDim s.cube "time" (normalizeTimeCoord t) }) := by
  refine ⟨?_, ?_, ?_⟩
  · intro cells
    induction cells with
    | nil => intro s _; rfl
    | cons a rest ih =>
        intro s hchain
        cases rest with
        | nil => rfl
        | cons b rest2 =>
            have hpair : oneMonthApart a b := (List.chain'_cons.mp hchain).1
            have hrest : List.Chain' oneMonthApart (b :: rest2) :=
              (List.chain'_cons.mp hchain).2
            have hmm : ¬ monMismatch a b := (monMismatch_iff a b).mpr hpair
            rw [mon_scan, if_neg hmm]
            exact ih s hrest
  · intro cells
    induction cells with
    | nil => intro s hc; exact absurd List.chain'_nil hc
    | cons a rest ih =>
        intro s hc
        cases rest with
        | nil => exact absurd (List.chain'_singleton a) hc
        | cons b rest2 =>
            by_cases hpair : oneMonthApart a b
            · have hrest : ¬ List.Chain' oneMonthApart (b :: rest2) := by
                intro hr
                exact hc (List.chain'_cons.mpr ⟨hpair, hr⟩)
              have hmm : ¬ monMismatch a b := (monMismatch_iff a b).mpr hpair
              rw [mon_scan, if_neg hmm]
              exact ih s hrest
            · have hmm : monMismatch a b := by
                by_contra hn
                exact hpair ((monMismatch_iff a b).mp hn)
              rw [mon_scan, if_pos hmm]
  · intro hfreq s t hfind htr
    simp [check_time_coord, bindM, getS, hfind, htr, seqM, modifyS,
      freq_scan, hfreq, normalizeTimeCoord]

/-- Witness for C3: consecutive months (with data at January and
February 1950) pass; a February-to-April style gap (January then March)
appends exactly one frequency error; and the `mon` time check on the
fixture cube is the scan over its time cells. -/
theorem claim_C3_witness :
    (mon_scan wCfg "time"
        [{ month := 1, year := 1950 }, { month := 2, year := 1950 }]
        (initState wCube) = (Except.ok (), initState wCube))
    ∧ (mon_scan wCfg "time"
        [{ month := 1, year := 1950 }, { month := 3, year := 1950 }]
        (initState wCube) =
      (Except.ok (), { initState wCube with
        errors := ["time: Frequency mon does not match input data"] }))
    ∧ (check_time_coord wCfg (initState wCube) =
        mon_scan wCfg "time" wTimeCoord.cells
          { initState wCube with
            cube := updateCoordNameDim wCube "time" (normalizeTimeCoord wTimeCoord) }) := by
  refine ⟨?_, ?_, ?_⟩
  · exact (claim_C3 wCfg "time").1
      [{ month := 1, year := 1950 }, { month := 2, year := 1950 }]
      (initState wCube) (by norm_num [List.chain'_cons, oneMonthApart])
  · exact ((claim_C3 wCfg "time").2.1
      [{ month := 1, year := 1950 }, { month := 3, year := 1950 }]
      (initState wCube) (by norm_num [List.chain'_cons, oneMonthApart])).trans (by rfl')
  · exact (claim_C3 wCfg "time").2.2 rfl (initState wCube) wTimeCoord (by rfl') rfl

/-! ## C5: hour-suffixed frequency tokens (corrected) -/

/-- A consecutive gap lying inside the closed target interval. -/
def gapInTarget (lo hi : Rat) (a b : Rat) : Prop := lo ≤ b - a ∧ b - a ≤ hi

instance (lo hi a b : Rat) : Decidable (gapInTarget lo hi a b) :=
  inferInstanceAs (Decidable (lo ≤ b - a ∧ b - a ≤ hi))

/-- The time coordinate of the C5 scenarios: a normalized time axis
whose single gap is exactly 1/24 day (one hour). -/
def wTimeCoordHour : Coord := { wTimeCoord with points := [0, 1 / 24] }

/-- See `wTimeCoordHour`. -/
def wCubeHour : Cube :=
  { var_name := "v", standard_name := some "air_temperature",
    units := plainUnit "K", attributes := [], coords := [wTimeCoordHour], ndim := 1 }

/-- Fail-slow checker with the literal spec token `sub hr`. -/
def wCfgSubSpace : CheckerConfig :=
  { cmor_var := wVinfo, frequency := "sub hr", failerr := false, automatic_fixes := false }

/-- Fail-slow checker with the token `subhr`. -/
def wCfgSubHr : CheckerConfig :=
  { cmor_var := wVinfo, frequency := "subhr", failerr := false, automatic_fixes := false }

/-- A time axis with a slightly negative gap (-1/2000 day), inside the
code's target interval for `subhr` but below the claimed lower bound
of 0. -/
def wCubeNegGap : Cube :=
  { wCubeHour with coords := [{ wTimeCoord with points := [0, -(1 / 2000)] }] }

/-- Counterexample to C5 as stated.  First: for the literal token
`sub hr`, `'sub hr'[:-2]` is `'sub '` (trailing space), which is
neither the literal `'sub'` nor parseable by `float`, so the time
check raises an uncaught `ValueError` even on a series whose every gap
is exactly 1/24 day — no interval is ever accepted and no frequency
error is reported.  Second: for the token `subhr`, a series with a
gap of -1/2000 day (below the claimed lower bound of 0, and below
target-minus-tolerance) is accepted without any error: the actual
lower bound is -0.001, not 0. -/
theorem claim_C5_counterexample :
    (((check_time_coord wCfgSubSpace) (initState wCubeHour)).1 =
        Except.error (PyExn.valueError "could not convert string to float: sub ")
      ∧ ((check_time_coord wCfgSubSpace) (initState wCubeHour)).2.errors = [])
    ∧ (((check_time_coord wCfgSubHr) (initState wCubeNegGap)).1 = Except.ok ()
      ∧ ((check_time_coord wCfgSubHr) (initState wCubeNegGap)).2.errors = []) := by
  refine ⟨⟨?_, ?_⟩, ?_, ?_⟩ <;> rfl'

/-- C5 (amended).  Strip `hr` from an hour-suffixed token: the literal
remainder `sub` (token `subhr`) gets the closed accepted interval
[-0.001, 1/24 + 0.001] — the lower bound is the negated tolerance, not
0 and not target-minus-tolerance; a remainder parsed by `float` as q
gets [q/24 - 0.001, q/24 + 0.001]; with such a target, the
time-coordinate scan accepts exactly the series whose every
consecutive gap lies inside the closed interval, and on any other
series it performs a single `report_error` on the entry state (one
error, at the first violating pair, nothing after it scanned).
A remainder that `float` cannot parse (such as `sub ` from the spec's
literal token `sub hr`) raises an uncaught `ValueError` instead. -/
theorem claim_C5 (cfg : CheckerConfig) (var_name : String) :
    (hrTarget "subhr" = some (-(1 / 1000), 1 / 24 + 1 / 1000))
    ∧ (∀ (q : Rat), cfg.frequency.dropRight 2 ≠ "sub" →
        pyFloat (cfg.frequency.dropRight 2) = some q →
          hrTarget cfg.frequency = some (q / 24 - 1 / 1000, q / 24 + 1 / 1000))
    ∧ (∀ (lo hi : Rat) (pts : List Rat) (s : CheckerState),
        List.Chain' (gapInTarget lo hi) pts →
          interval_scan cfg var_name lo hi pts s = (Except.ok (), s))
    ∧ (∀ (lo hi : Rat) (pts : List Rat) (s : CheckerState),
        ¬ List.Chain' (gapInTarget lo hi) pts →
          interval_scan cfg var_name lo hi pts s =
            report_error cfg (freq_error_msg var_name cfg.frequency) s)
    ∧ (cfg.frequency ≠ "mon" → cfg.frequency ≠ "yr" → cfg.frequency ≠ "dec" →
        cfg.frequency ≠ "day" → strEndsWith cfg.frequency "hr" = true →
        hrTarget cfg.frequency = none →
        ∀ (s : CheckerState) (t : Coord),
          findCoordName s.cube "time" true = some t → t.units.timeRef = true →
            ((check_time_coord cfg s).1 =
              Except.error (PyExn.valueError
                ("could not convert string to float: " ++ cfg.frequency.dropRight 2)))) := by
  refine ⟨?_, ?_, ?_, ?_, ?_⟩
  · rfl'
  · intro q hbase hparse
    simp [hrTarget, hbase, hparse]
  · intro lo hi pts
    induction pts with
    | nil => intro s _; rfl
    | cons a rest ih =>
        intro s hchain
        cases rest with
        | nil => rfl
        | cons b rest2 =>
            have hpair : gapInTarget lo hi a b := (List.chain'_cons.mp hchain).1
            have hrest := (List.chain'_cons.mp hchain).2
            have hcond : ¬ (b - a < lo ∨ hi < b - a) := by
              rcases hpair with ⟨h1, h2⟩
              push_neg
              exact ⟨h1, h2⟩
            rw [interval_scan, if_neg hcond]
            exact ih s hrest
  · intro lo hi pts
    induction pts with
    | nil => intro s hc; exact absurd List.chain'_nil hc
    | cons a rest ih =>
        intro s hc
        cases rest with
        | nil => exact absurd (List.chain'_singleton a) hc
        | cons b rest2 =>
            by_cases hpair : gapInTarget lo hi a b
            · have hrest : ¬ List.Chain' (gapInTarget lo hi) (b :: rest2) := by
                intro hr
                exact hc (List.chain'_cons.mpr ⟨hpair, hr⟩)
              have hcond : ¬ (b - a < lo ∨ hi < b - a) := by
                rcases hpair with ⟨h1, h2⟩
                push_neg
                exact ⟨h1, h2⟩
              rw [interval_scan, if_neg hcond]
              exact ih s hrest
            · have hcond : b - a < lo ∨ hi < b - a := by
                by_contra hn
                push_neg at hn
                exact hpair ⟨hn.1, hn.2⟩
              rw [interval_scan, if_pos hcond]
  · intro h1 h2 h3 h4 hends hnone s t hfind htr
    simp [check_time_coord, bindM, getS, hfind, htr, seqM, modifyS,
      freq_scan, h1, h2, h3, h4, hends, hnone, raiseM]

/-- Fail-slow checker with the token `6hr`. -/
def wCfg6hr : CheckerConfig :=
  { cmor_var := wVinfo, frequency := "6hr", failerr := false, automatic_fixes := false }

/-- Witness for C5 (amended) at concrete inputs: the `6hr` target is
6/24 plus-minus the tolerance; a one-hour series passes the `subhr`
interval scan; a three-hour gap under a one-hour target triggers the
single frequency error; the `sub hr` run raises `ValueError` on the
fixture cube. -/
theorem claim_C5_witness :
    (hrTarget "6hr" = some (6 / 24 - 1 / 1000, 6 / 24 + 1 / 1000))
    ∧ (interval_scan wCfgSubHr "time" (-(1 / 1000)) (1 / 24 + 1 / 1000)
        [0, 1 / 24] (initState wCubeHour) = (Except.ok (), initState wCubeHour))
    ∧ (interval_scan wCfgSubHr "time" (-(1 / 1000)) (1 / 24 + 1 / 1000)
        [0, 3 / 24] (initState wCubeHour) =
        report_error wCfgSubHr (freq_error_msg "time" "subhr") (initState wCubeHour))
    ∧ ((check_time_coord wCfgSubSpace (initState wCubeHour)).1 =
        Except.error (PyExn.valueError "could not convert string to float: sub ")) := by
  refine ⟨?_, ?_, ?_, ?_⟩
  · exact (claim_C5 wCfg6hr "time").2.1 6 (by decide) (by rfl')
  · exact (claim_C5 wCfgSubHr "time").2.2.1 (-(1 / 1000)) (1 / 24 + 1 / 1000)
      [0, 1 / 24] (initState wCubeHour)
      (by norm_num [List.chain'_cons, gapInTarget])
  · exact (claim_C5 wCfgSubHr "time").2.2.2.1 (-(1 / 1000)) (1 / 24 + 1 / 1000)
      [0, 3 / 24] (initState wCubeHour)
      (by norm_num [List.chain'_cons, gapInTarget])
  · exact (claim_C5 wCfgSubSpace "time").2.2.2.2 (by decide) (by decide) (by decide)
      (by decide) (by rfl') (by rfl') (initState wCubeHour) wTimeCoordHour (by rfl') rfl

/-! ## Frame infrastructure: steps that never touch the cube's units or attributes -/

/-- The method leaves the cube's variable units and its attribute set
untouched (whatever else it does to coordinates, lists or the log, and
whether or not it raises). -/
def CubeFrame {α : Type} (m : CheckM α) : Prop :=
  ∀ s : CheckerState,
    ((m s).2).cube.units = s.cube.units ∧ ((m s).2).cube.attributes = s.cube.attributes

theorem cf_pureM {α : Type} (a : α) : CubeFrame (pureM a) := fun _ => ⟨rfl, rfl⟩

theorem cf_raiseM {α : Type} (e : PyExn) : CubeFrame (raiseM (α := α) e) :=
  fun _ => ⟨rfl, rfl⟩

theorem cf_report_error (cfg : CheckerConfig) (msg : String) :
    CubeFrame (report_error cfg msg) := by
  intro s
  unfold report_error
  by_cases h : cfg.failerr <;> simp [h]

theorem cf_report_warning (cfg : CheckerConfig) (msg : String) :
    CubeFrame (report_warning cfg msg) := by
  intro s
  unfold report_warning
  by_cases h : cfg.failerr <;> simp [h]

theorem cf_report_errors (cfg : CheckerConfig) : CubeFrame (report_errors cfg) := by
  intro s
  unfold report_errors
  by_cases h : has_errors s <;> simp [h]

theorem cf_report_warnings (cfg : CheckerConfig) : CubeFrame (report_warnings cfg) := by
  intro s
  unfold report_warnings
  by_cases h : has_warnings s <;> simp [h]

theorem cf_bindM {α β : Type} {m : CheckM α} {k : α → CheckM β}
    (hm : CubeFrame m) (hk : ∀ a, CubeFrame (k a)) : CubeFrame (bindM m k) := by
  intro s
  have hm1 := hm s
  unfold bindM
  cases hres : m s with
  | mk r s2 =>
      rw [hres] at hm1
      cases r with
      | ok a =>
          have hk1 := hk a s2
          exact ⟨hk1.1.trans hm1.1, hk1.2.trans hm1.2⟩
      | error e => exact hm1

theorem cf_seqM {m k : CheckM Unit} (hm : CubeFrame m) (hk : CubeFrame k) :
    CubeFrame (seqM m k) := cf_bindM hm (fun _ => hk)

theorem cf_getS_bind {α : Type} {k : CheckerState → CheckM α}
    (hk : ∀ s0, CubeFrame (k s0)) : CubeFrame (bindM getS k) :=
  fun s => (hk s) s

theorem cf_modifyS (f : CheckerState → CheckerState)
    (hf : ∀ s, (f s).cube.units = s.cube.units ∧ (f s).cube.attributes = s.cube.attributes) :
    CubeFrame (modifyS f) := fun s => hf s

theorem cf_forEachM {α : Type} {f : α → CheckM Unit} (hf : ∀ a, CubeFrame (f a)) :
    ∀ l : List α, CubeFrame (forEachM f l)
  | [] => cf_pureM ()
  | x :: xs => cf_seqM (hf x) (cf_forEachM hf xs)

theorem cf_reverse_coord (coord : Coord) : CubeFrame (reverse_coord coord) := by
  unfold reverse_coord
  split
  · exact cf_modifyS _ (fun s => ⟨rfl, rfl⟩)
  · exact cf_pureM ()

theorem cf_direction_step (cfg : CheckerConfig) (coord : Coord) (v : String)
    (mm : Rat → Rat → Bool) (dw : String) : CubeFrame (direction_step cfg coord v mm dw) := by
  unfold direction_step
  split
  · split
    · split
      · exact cf_report_error _ _
      · exact cf_reverse_coord _
    · exact cf_pureM ()
  · exact cf_raiseM _

theorem cf_check_coord_monotonicity_and_direction (cfg : CheckerConfig)
    (ci : CoordinateInfo) (coord : Coord) (v : String) :
    CubeFrame (check_coord_monotonicity_and_direction cfg ci coord v) := by
  unfold check_coord_monotonicity_and_direction
  apply cf_seqM
  · split
    · exact cf_report_error _ _
    · exact cf_pureM ()
  · split
    · exact cf_pureM ()
    · split
      · split
        · exact cf_direction_step _ _ _ _ _
        · split
          · exact cf_direction_step _ _ _ _ _
          · exact cf_pureM ()
      · exact cf_pureM ()

theorem cf_coord_units_step (cfg : CheckerConfig) (ci : CoordinateInfo)
    (coord : Coord) (v : String) : CubeFrame (coord_units_step cfg ci coord v) := by
  unfold coord_units_step
  split
  · split
    · split
      · exact cf_bindM (cf_modifyS _ (fun s => ⟨rfl, rfl⟩)) (fun a => cf_pureM a)
      · exact cf_bindM (cf_report_error _ _) (fun a => cf_pureM a)
    · exact cf_bindM (cf_report_error _ _) (fun a => cf_pureM a)
  · exact cf_pureM _

theorem cf_check_requested_values (cfg : CheckerConfig) (ci : CoordinateInfo)
    (coord : Coord) (v : String) : CubeFrame (check_requested_values cfg ci coord v) := by
  unfold check_requested_values
  split
  · apply cf_forEachM
    intro a
    split
    · exact cf_pureM ()
    · exact cf_report_warning _ _
  · exact cf_pureM ()

theorem cf_valid_min_step (cfg : CheckerConfig) (ci : CoordinateInfo)
    (coord : Coord) (v : String) : CubeFrame (valid_min_step cfg ci coord v) := by
  unfold valid_min_step
  split
  · exact cf_pureM _
  · split
    · split
      · exact cf_pureM _
      · exact cf_bindM (cf_report_error _ _) (fun a => cf_pureM _)
    · exact cf_pureM _

theorem cf_valid_max_step (cfg : CheckerConfig) (ci : CoordinateInfo)
    (coord : Coord) (v : String) : CubeFrame (valid_max_step cfg ci coord v) := by
  unfold valid_max_step
  split
  · exact cf_pureM _
  · split
    · split
      · exact cf_pureM _
      · exact cf_bindM (cf_report_error _ _) (fun a => cf_pureM _)
    · exact cf_pureM _

theorem cf_check_coord_values (cfg : CheckerConfig) (ci : CoordinateInfo)
    (coord : Coord) (v : String) : CubeFrame (check_coord_values cfg ci coord v) := by
  unfold check_coord_values
  apply cf_seqM (cf_check_requested_values _ _ _ _)
  apply cf_bindM (cf_valid_min_step _ _ _ _)
  intro f1
  apply cf_bindM (cf_valid_max_step _ _ _ _)
  intro f2
  split
  · exact cf_modifyS _ (fun s => ⟨rfl, rfl⟩)
  · exact cf_pureM ()

theorem cf_check_coord (cfg : CheckerConfig) (ci : CoordinateInfo)
    (coord : Coord) (v : String) : CubeFrame (check_coord cfg ci coord v) := by
  unfold check_coord
  split
  · exact cf_pureM ()
  · apply cf_bindM (cf_coord_units_step _ _ _ _)
    intro c2
    apply cf_seqM (cf_check_coord_values _ _ _ _)
    split
    · exact cf_check_coord_monotonicity_and_direction _ _ _ _
    · exact cf_pureM ()

theorem cf_check_coords (cfg : CheckerConfig) : CubeFrame (check_coords cfg) := by
  unfold check_coords
  apply cf_forEachM
  intro ci
  unfold check_coords_entry
  apply cf_getS_bind
  intro s0
  split
  · exact cf_pureM ()
  · split
    · exact cf_pureM ()
    · exact cf_check_coord _ _ _ _

theorem cf_check_coords_data (cfg : CheckerConfig) : CubeFrame (check_coords_data cfg) := by
  unfold check_coords_data
  apply cf_forEachM
  intro ci
  unfold check_coords_data_entry
  apply cf_getS_bind
  intro s0
  split
  · exact cf_pureM ()
  · split
    · exact cf_pureM ()
    · exact cf_check_coord_monotonicity_and_direction _ _ _ _

theorem cf_mon_scan (cfg : CheckerConfig) (v : String) :
    ∀ cells : List MonthYear, CubeFrame (mon_scan cfg v cells)
  | [] => cf_pureM ()
  | [_] => cf_pureM ()
  | a :: b :: rest => by
      unfold mon_scan
      split
      · exact cf_report_error _ _
      · exact cf_mon_scan cfg v (b :: rest)

theorem cf_yr_scan (cfg : CheckerConfig) (v : String) :
    ∀ cells : List MonthYear, CubeFrame (yr_scan cfg v cells)
  | [] => cf_pureM ()
  | [_] => cf_pureM ()
  | a :: b :: rest => by
      unfold yr_scan
      split
      · exact cf_report_error _ _
      · exact cf_yr_scan cfg v (b :: rest)

theorem cf_interval_scan (cfg : CheckerConfig) (v : String) (lo hi : Rat) :
    ∀ pts : List Rat, CubeFrame (interval_scan cfg v lo hi pts)
  | [] => cf_pureM ()
  | [_] => cf_pureM ()
  | a :: b :: rest => by
      unfold interval_scan
      split
      · exact cf_report_error _ _
      · exact cf_interval_scan cfg v lo hi (b :: rest)

theorem cf_freq_scan (cfg : CheckerConfig) (v : String) (coord : Coord) :
    CubeFrame (freq_scan cfg v coord) := by
  unfold freq_scan
  split
  · exact cf_mon_scan _ _ _
  · split
    · exact cf_yr_scan _ _ _
    · split
      · exact cf_interval_scan _ _ _ _ _
      · split
        · exact cf_interval_scan _ _ _ _ _
        · split
          · split
            · exact cf_interval_scan _ _ _ _ _
            · exact cf_raiseM _
          · exact cf_report_error _ _

theorem updateCoordNameDim_frame (c : Cube) (n : String) (k2 : Coord) :
    (updateCoordNameDim c n k2).units = c.units
      ∧ (updateCoordNameDim c n k2).attributes = c.attributes := by
  unfold updateCoordNameDim
  split <;> exact ⟨rfl, rfl⟩

theorem cf_check_time_coord (cfg : CheckerConfig) : CubeFrame (check_time_coord cfg) := by
  unfold check_time_coord
  apply cf_getS_bind
  intro s0
  split
  · exact cf_pureM ()
  · split
    · exact cf_seqM (cf_report_error _ _) (cf_freq_scan _ _ _)
    · exact cf_seqM (cf_modifyS _ (fun s => updateCoordNameDim_frame _ _ _))
        (cf_freq_scan _ _ _)

theorem cf_check_rank (cfg : CheckerConfig) : CubeFrame (check_rank cfg) := by
  unfold check_rank
  apply cf_getS_bind
  intro s0
  split
  · exact cf_report_error _ _
  · exact cf_pureM ()

theorem cf_check_dim_names (cfg : CheckerConfig) : CubeFrame (check_dim_names cfg) := by
  unfold check_dim_names
  apply cf_forEachM
  intro ci
  unfold check_dim_name
  apply cf_getS_bind
  intro s0
  split
  · exact cf_pureM ()
  · split
    · split
      · exact cf_report_error _ _
      · exact cf_pureM ()
    · split
      · exact cf_report_error _ _
      · exact cf_report_error _ _

theorem cf_check_units_convertible (cfg : CheckerConfig) :
    CubeFrame (check_units_convertible cfg) := by
  unfold check_units_convertible
  apply cf_getS_bind
  intro s0
  split
  · split
    · exact cf_report_error _ _
    · exact cf_pureM ()
  · exact cf_pureM ()

theorem cf_check_positive_attr (cfg : CheckerConfig) :
    CubeFrame (check_positive_attr cfg) := by
  unfold check_positive_attr
  apply cf_getS_bind
  intro s0
  split
  · split
    · exact cf_report_warning _ _
    · split
      · exact cf_report_error _ _
      · exact cf_pureM ()
  · exact cf_pureM ()

theorem cf_addCategorised (nm : String) : CubeFrame (addCategorised nm) := by
  unfold addCategorised
  apply cf_getS_bind
  intro s0
  split
  · exact cf_raiseM _
  · exact cf_modifyS _ (fun s => ⟨rfl, rfl⟩)

theorem cf_add_auxiliar_time_coordinates (cfg : CheckerConfig) :
    CubeFrame (add_auxiliar_time_coordinates cfg) := by
  unfold add_auxiliar_time_coordinates
  apply cf_getS_bind
  intro s0
  apply cf_seqM
  · split
    · exact cf_pureM ()
    · exact cf_addCategorised _
  · apply cf_seqM
    · split
      · exact cf_pureM ()
      · exact cf_addCategorised _
    · apply cf_seqM
      · split
        · exact cf_pureM ()
        · exact cf_addCategorised _
      · split
        · exact cf_pureM ()
        · exact cf_addCategorised _

theorem cf_check_fill_value (cfg : CheckerConfig) : CubeFrame (check_fill_value cfg) :=
  cf_pureM ()

/-! ## C4: the psu legacy token -/

theorem seqM_assoc (a b c : CheckM Unit) : seqM (seqM a b) c = seqM a (seqM b c) := by
  funext s
  unfold seqM bindM
  cases ha : a s with
  | mk r s2 => cases r <;> simp

/-- Stepping over a sub-check known to return normally. -/
theorem seqM_shift (m k : CheckM Unit) (s s1 : CheckerState)
    (hm : m s = (Except.ok (), s1)) : seqM m k s = k s1 := by
  unfold seqM bindM
  rw [hm]

/-- A normal return of a sequence splits into normal returns of the
parts. -/
theorem seqM_ok_inv (m k : CheckM Unit) (s sf : CheckerState) (u : Unit)
    (h : seqM m k s = (Except.ok u, sf)) :
    ∃ s1, m s = (Except.ok (), s1) ∧ k s1 = (Except.ok u, sf) := by
  cases hm : m s with
  | mk r1 s1 =>
      cases r1 with
      | ok a =>
          cases a
          refine ⟨s1, rfl, ?_⟩
          unfold seqM bindM at h
          rw [hm] at h
          exact h
      | error e =>
          unfold seqM bindM at h
          rw [hm] at h
          simp at h

/-- The final state of a metadata run is the final state of
`check_metadata`. -/
theorem checkMetadataRun_snd (cfg : CheckerConfig) (c : Cube) :
    (checkMetadataRun cfg c).2 = (check_metadata cfg (initState c)).2 := by
  unfold checkMetadataRun
  cases h : check_metadata cfg (initState c) with
  | mk r s => cases r <;> rfl

/-- Looking up a deleted attribute yields nothing. -/
theorem lookup_delAttr (c : Cube) (k : String) :
    ((delAttr c k).attributes).lookup k = none := by
  unfold delAttr
  induction c.attributes with
  | nil => rfl
  | cons p rest ih =>
      rw [List.filter_cons]
      by_cases hp : p.1 = k
      · simp only [hp]
        simpa using ih
      · have hcond : (decide ¬(p.1 = k)) = true := by simp [hp]
        simp only [hcond, if_true]
        have hbeq : (k == p.1) = false := beq_eq_false_iff_ne.mpr (Ne.symm hp)
        simpa [List.lookup, hbeq] using ih

/-- With `fail_on_error=false` the standard-name check returns
normally and leaves the cube untouched. -/
theorem check_standard_name_ok (cfg : CheckerConfig) (hf : cfg.failerr = false)
    (s : CheckerState) :
    ∃ s1, check_standard_name cfg s = (Except.ok (), s1) ∧ s1.cube = s.cube := by
  unfold check_standard_name bindM getS report_error pureM
  by_cases h1 : cfg.cmor_var.standard_name ≠ ""
  · by_cases h2 : s.cube.standard_name ≠ some cfg.cmor_var.standard_name
    · refine ⟨{ s with errors := s.errors
        ++ [attr_msg s.cube.var_name "standard_name" cfg.cmor_var.standard_name
            (optStr s.cube.standard_name)] }, ?_, rfl⟩
      simp [h1, h2, hf]
    · refine ⟨s, ?_, rfl⟩
      simp [h1, h2]
  · refine ⟨s, ?_, rfl⟩
    simp [h1]

/-- When automatic fixes are on and the legacy attribute is the
case-insensitive `psu`, the repair step forces the unit to
dimensionless and drops the attribute. -/
theorem check_psu_fix_fires (cfg : CheckerConfig) (hfx : cfg.automatic_fixes = true)
    (s : CheckerState) (hattr : strLower (attrGetD s.cube "invalid_units") = "psu") :
    check_psu_fix cfg s = (Except.ok (),
      { s with cube := { delAttr s.cube "invalid_units" with units := plainUnit "1.0" } }) := by
  unfold check_psu_fix bindM getS modifyS
  simp [hfx, hattr]

/-- A successful data-phase unit conversion leaves the cube at the
effective target units. -/
theorem convert_cube_units_ok (cfg : CheckerConfig) (h : cfg.cmor_var.vunits ≠ "")
    (s s1 : CheckerState) (hc : convert_cube_units cfg s = (Except.ok (), s1)) :
    s1.cube.units.uname = get_effective_units cfg := by
  unfold convert_cube_units bindM getS modifyS raiseM pureM at hc
  by_cases h1 : s.cube.units.uname = get_effective_units cfg
  · simp [h, h1] at hc
    rw [← hc]
    exact h1
  · by_cases h2 : unitsConvertible s.cube.units (get_effective_units cfg) = true
    · simp [h, h1, h2] at hc
      rw [← hc]
      rfl
    · simp [h, h1, h2] at hc

/-- C4.  Whenever the specification units are the case-insensitive
token `psu`: the effective target units — the target of both the
metadata-phase convertibility check and the data-phase conversion —
are the dimensionless `1.0`, and a cube returned by a successful
`check_data` carries exactly those units.  And whenever
`automatic_fixes=true` (collect-all mode) and the cube carries an
`invalid_units` attribute valued case-insensitively `psu`,
`check_metadata` leaves the checker with the cube's units forced to
dimensionless and the `invalid_units` attribute removed, whatever the
later checks do. -/
theorem claim_C4 (cfg : CheckerConfig) :
    (strLower cfg.cmor_var.vunits = "psu" → get_effective_units cfg = "1.0")
    ∧ (strLower cfg.cmor_var.vunits = "psu" →
      ∀ (cube r : Cube) (s : CheckerState),
        checkDataRun cfg cube = (Except.ok r, s) → r.units.uname = "1.0")
    ∧ (cfg.automatic_fixes = true → cfg.failerr = false →
      ∀ cube : Cube, strLower (attrGetD cube "invalid_units") = "psu" →
        ((checkMetadataRun cfg cube).2.cube.units = plainUnit "1.0"
          ∧ ((checkMetadataRun cfg cube).2.cube.attributes).lookup "invalid_units"
            = none)) := by
  have heffpsu : strLower cfg.cmor_var.vunits = "psu" → get_effective_units cfg = "1.0" := by
    intro h
    simp [get_effective_units, h]
  refine ⟨heffpsu, ?_, ?_⟩
  · intro h cube r s hrun
    have hvne : cfg.cmor_var.vunits ≠ "" := by
      intro h0
      rw [h0] at h
      exact absurd h (by decide)
    unfold checkDataRun at hrun
    cases hcd : check_data cfg (initState cube) with
    | mk r0 sf =>
        rw [hcd] at hrun
        cases r0 with
        | error e => simp at hrun
        | ok u =>
            simp at hrun
            unfold check_data at hcd
            obtain ⟨s1, hconv, hrest⟩ := seqM_ok_inv _ _ _ _ u hcd
            have hu1 := convert_cube_units_ok cfg hvne _ s1 hconv
            have hframe := (cf_seqM (cf_check_coords_data cfg)
              (cf_seqM (cf_report_warnings cfg) (cf_report_errors cfg))) s1
            rw [hrest] at hframe
            rw [← hrun.1]
            rw [show sf.cube.units = s1.cube.units from hframe.1, hu1]
            exact heffpsu h
  · intro hfx hf cube hattr
    obtain ⟨s1, hstd, hc1⟩ := check_standard_name_ok cfg hf (initState cube)
    have hattr1 : strLower (attrGetD s1.cube "invalid_units") = "psu" := by
      rw [hc1]
      exact hattr
    have hpsu := check_psu_fix_fires cfg hfx s1 hattr1
    have heval : check_metadata cfg (initState cube)
        = (seqM (check_units_convertible cfg)
            (seqM (check_positive_attr cfg)
              (seqM (check_fill_value cfg)
                (seqM (check_dim_names cfg)
                  (seqM (check_coords cfg)
                    (seqM (check_time_coord cfg)
                      (seqM (check_rank cfg)
                        (seqM (report_warnings cfg)
                          (seqM (report_errors cfg)
                            (add_auxiliar_time_coordinates cfg))))))))))
          { s1 with cube :=
              { delAttr s1.cube "invalid_units" with units := plainUnit "1.0" } } := by
      unfold check_metadata metadata_checks check_var_metadata
      simp only [seqM_assoc]
      rw [seqM_shift _ _ _ _ hstd, seqM_shift _ _ _ _ hpsu]
    have hRf : CubeFrame
        (seqM (check_units_convertible cfg)
          (seqM (check_positive_attr cfg)
            (seqM (check_fill_value cfg)
              (seqM (check_dim_names cfg)
                (seqM (check_coords cfg)
                  (seqM (check_time_coord cfg)
                    (seqM (check_rank cfg)
                      (seqM (report_warnings cfg)
                        (seqM (report_errors cfg)
                          (add_auxiliar_time_coordinates cfg)))))))))) :=
      cf_seqM (cf_check_units_convertible cfg)
        (cf_seqM (cf_check_positive_attr cfg)
          (cf_seqM (cf_check_fill_value cfg)
            (cf_seqM (cf_check_dim_names cfg)
              (cf_seqM (cf_check_coords cfg)
                (cf_seqM (cf_check_time_coord cfg)
                  (cf_seqM (cf_check_rank cfg)
                    (cf_seqM (cf_report_warnings cfg)
                      (cf_seqM (cf_report_errors cfg)
                        (cf_add_auxiliar_time_coordinates cfg)))))))))
    have hfr := hRf { s1 with cube :=
        { delAttr s1.cube "invalid_units" with units := plainUnit "1.0" } }
    rw [checkMetadataRun_snd, heval]
    constructor
    · rw [hfr.1]
    · rw [hfr.2]
      exact lookup_delAttr s1.cube "invalid_units"

/-- A salinity-style specification whose units are the legacy token. -/
def wVinfoPsu : VariableInfo :=
  { standard_name := "x", vunits := "PSU", positive := "", frequency := "mon",
    coordinates := [] }

/-- See `wVinfoPsu`. -/
def wCfgPsu : CheckerConfig :=
  { cmor_var := wVinfoPsu, frequency := "mon", failerr := false, automatic_fixes := true }

/-- A cube carrying the legacy `invalid_units` attribute (mixed case). -/
def wCubePsu : Cube :=
  { var_name := "so", standard_name := some "x", units := plainUnit "1",
    attributes := [("invalid_units", "Psu")], coords := [], ndim := 0 }

/-- Witness for C4 at concrete inputs: effective units of a `PSU` spec
are `1.0`; a data run converts the cube to `1.0`; a metadata run with
fixes forces the unit and drops the attribute. -/
theorem claim_C4_witness :
    (get_effective_units wCfgPsu = "1.0")
    ∧ ((checkDataRun wCfgPsu wCubePsu).2.cube.units.uname = "1.0")
    ∧ ((checkMetadataRun wCfgPsu wCubePsu).2.cube.units = plainUnit "1.0"
        ∧ ((checkMetadataRun wCfgPsu wCubePsu).2.cube.attributes).lookup "invalid_units"
          = none) := by
  refine ⟨?_, ?_, ?_⟩
  · exact (claim_C4 wCfgPsu).1 (by rfl')
  · exact (claim_C4 wCfgPsu).2.1 (by rfl') wCubePsu
      ((checkDataRun wCfgPsu wCubePsu).2.cube) ((checkDataRun wCfgPsu wCubePsu).2)
      (by rfl')
  · exact (claim_C4 wCfgPsu).2.2 rfl rfl wCubePsu (by rfl')

/-! ## C6: longitude range check and the 0-360 re-wrap -/

theorem ratFloor_eq_floor (q : Rat) : ratFloor q = ⌊q⌋ := by
  unfold ratFloor
  rw [Rat.floor_def]
  exact Int.fdiv_eq_ediv _ (Int.ofNat_nonneg _)

/-- The longitude wrap lands in [0, 360). -/
theorem wrap360_bounds (p : Rat) : 0 ≤ wrap360 p ∧ wrap360 p < 360 := by
  unfold wrap360
  rw [ratFloor_eq_floor]
  have hle : ((⌊p / 360⌋ : Int) : Rat) ≤ p / 360 := Int.floor_le (p / 360)
  have hlt : p / 360 < ((⌊p / 360⌋ : Int) : Rat) + 1 := Int.lt_floor_add_one (p / 360)
  have hid : 360 * (p / 360) = p := by ring
  constructor
  · nlinarith [hle, hid]
  · nlinarith [hlt, hid]

/-- C6.  For a longitude coordinate with declared valid range [0, 360)
and at least one point below 0 (and none above 360): with automatic
fixes the checker replaces the cube by its 0-360 intersection — every
longitude point of the result lies in [0, 360), a point at -10
landing at 350 — and reports no error; without fixes it performs
exactly one `report_error` naming the violated `valid_min` bound and
does not touch the cube. -/
theorem claim_C6 (cfg : CheckerConfig) (ci : CoordinateInfo) (coord : Coord)
    (var_name : String) (s : CheckerState)
    (hstd : ci.standard_name = "longitude")
    (hmin : ci.valid_min = some 0) (hmax : ci.valid_max = some 360)
    (hreq : ci.requested = ([] : List Rat))
    (hlow : coord.points.any (fun p => decide (p < 0)) = true)
    (hhigh : coord.points.any (fun p => decide ((360 : Rat) < p)) = false) :
    (cfg.automatic_fixes = true →
      (check_coord_values cfg ci coord var_name s =
          (Except.ok (), { s with cube := intersectLon s.cube var_name })
        ∧ (∀ k ∈ (intersectLon s.cube var_name).coords,
            k.var_name = var_name → k.is_dim_coord = true →
              ∀ p ∈ k.points, 0 ≤ p ∧ p < 360)
        ∧ wrap360 (-10) = 350))
    ∧ (cfg.automatic_fixes = false →
      check_coord_values cfg ci coord var_name s =
        report_error cfg (vals_msg var_name "< valid_min =" (ratStr 0)) s) := by
  constructor
  · intro hfix
    refine ⟨?_, ?_, ?_⟩
    · simp [check_coord_values, seqM, bindM, check_requested_values, hreq, pureM,
        valid_min_step, hmin, hlow, hstd, hfix, valid_max_step, hmax, hhigh, modifyS]
    · intro k hk hv hd p hp
      unfold intersectLon at hk
      simp only [List.mem_map] at hk
      obtain ⟨k0, hk0, hk0eq⟩ := hk
      by_cases hc : k0.var_name = var_name ∧ k0.is_dim_coord = true
      · rw [if_pos hc] at hk0eq
        rw [← hk0eq] at hp
        simp only [List.mem_map] at hp
        obtain ⟨q, _, hq⟩ := hp
        rw [← hq]
        exact wrap360_bounds q
      · rw [if_neg hc] at hk0eq
        rw [← hk0eq] at hv hd
        exact absurd ⟨hv, hd⟩ hc
    · rfl'
  · intro hfix
    cases hferr : cfg.failerr with
    | true =>
        simp [check_coord_values, seqM, bindM, check_requested_values, hreq, pureM,
          valid_min_step, hmin, hlow, hstd, hfix, report_error, hferr]
    | false =>
        simp [check_coord_values, seqM, bindM, check_requested_values, hreq, pureM,
          valid_min_step, hmin, hlow, hstd, hfix, report_error, hferr,
          valid_max_step, hmax, hhigh]

/-- Longitude specification with valid range [0, 360). -/
def wCiLon : CoordinateInfo :=
  { cname := "longitude", standard_name := "longitude", out_name := "lon",
    cunits := "degrees_east", stored_direction := "increasing",
    generic_level := false, valid_min := some 0, valid_max := some 360,
    requested := [], value := "" }

/-- A longitude coordinate with a point at -10. -/
def wLonCoord : Coord :=
  { var_name := "lon", standard_name := some "longitude",
    units := plainUnit "degrees_east", points := [-10, 0, 10], cells := [],
    ndim := 1, dims := [0], is_dim_coord := true }

/-- See `wLonCoord`. -/
def wCubeLon : Cube :=
  { var_name := "tas", standard_name := some "air_temperature",
    units := plainUnit "K", attributes := [], coords := [wLonCoord], ndim := 1 }

/-- Witness for C6 at concrete inputs: with fixes the cube's longitude
points become [350, 0, 10] with no error; without fixes the
`valid_min` error is appended and the cube untouched. -/
theorem claim_C6_witness :
    (check_coord_values wCfgFix wCiLon wLonCoord "lon" (initState wCubeLon) =
      (Except.ok (), { initState wCubeLon with
        cube := { wCubeLon with coords := [{ wLonCoord with points := [350, 0, 10] }] } }))
    ∧ (check_coord_values wCfg wCiLon wLonCoord "lon" (initState wCubeLon) =
      (Except.ok (), { initState wCubeLon with
        errors := ["lon: has values < valid_min = 0"] })) := by
  constructor
  · exact (((claim_C6 wCfgFix wCiLon wLonCoord "lon" (initState wCubeLon)
      rfl rfl rfl rfl (by rfl') (by rfl')).1 rfl).1).trans (by rfl')
  · exact ((claim_C6 wCfg wCiLon wLonCoord "lon" (initState wCubeLon)
      rfl rfl rfl rfl (by rfl') (by rfl')).2 rfl).trans (by rfl')

/-! ## C10: the four auxiliary time coordinates -/

/-- Appending a coordinate extends the auxiliary name list on the
right (by the coordinate's name when it is auxiliary). -/
theorem auxCoordNames_append (c : Cube) (k : Coord) (hk : k.is_dim_coord = false) :
    auxCoordNames { c with coords := c.coords ++ [k] }
      = auxCoordNames c ++ [coordPyName k] := by
  unfold auxCoordNames
  rw [List.filter_append, List.map_append]
  simp [List.filter, hk]

/-- One conditional addition step of
`_add_auxiliar_time_coordinates`: auxiliary names are preserved, and
when the guard saw the name absent the step puts it there. -/
theorem addCategorised_eval (nm : String) (sx : CheckerState) :
    addCategorised nm sx = (match findCoordName sx.cube "time" false with
      | none => (Except.error (PyExn.coordinateNotFoundError "time"), sx)
      | some t => (Except.ok (), { sx with cube :=
          { sx.cube with coords := sx.cube.coords ++ [categorisedCoord nm t] } })) := by
  unfold addCategorised bindM getS raiseM modifyS
  cases hfind : findCoordName sx.cube "time" false with
  | none => simp [hfind]
  | some t => simp [hfind]

/-- See `addCategorised_eval`. -/
theorem aux_step_ok (names : List String) (nm : String) (sx sy : CheckerState) (u : Unit)
    (h : (if names.contains nm then pureM () else addCategorised nm) sx
      = (Except.ok u, sy)) :
    (∀ m, m ∈ auxCoordNames sx.cube → m ∈ auxCoordNames sy.cube)
    ∧ (names.contains nm = false → nm ∈ auxCoordNames sy.cube) := by
  by_cases hc : names.contains nm = true
  · rw [if_pos hc] at h
    unfold pureM at h
    have hsy : sx = sy := congrArg Prod.snd h
    constructor
    · intro m hm
      rw [← hsy]
      exact hm
    · intro hfalse
      rw [hfalse] at hc
      exact absurd hc (by simp)
  · rw [if_neg hc, addCategorised_eval] at h
    cases hfind : findCoordName sx.cube "time" false with
    | none =>
        rw [hfind] at h
        simp at h
    | some t =>
        rw [hfind] at h
        have hsy : { sx with cube :=
            { sx.cube with coords := sx.cube.coords ++ [categorisedCoord nm t] } } = sy :=
          congrArg Prod.snd h
        have hnames : auxCoordNames sy.cube
            = auxCoordNames sx.cube ++ [nm] := by
          rw [← hsy]
          exact auxCoordNames_append sx.cube (categorisedCoord nm t) rfl
        constructor
        · intro m hm
          rw [hnames]
          exact List.mem_append_left _ hm
        · intro _
          rw [hnames]
          exact List.mem_append_right _ (List.mem_singleton.mpr rfl)

/-- A normal return of `_add_auxiliar_time_coordinates` leaves all
four derived names among the auxiliary coordinates. -/
theorem add_aux_ok_names (cfg : CheckerConfig) (s sf : CheckerState) (u : Unit)
    (h : add_auxiliar_time_coordinates cfg s = (Except.ok u, sf)) :
    "day_of_month" ∈ auxCoordNames sf.cube ∧ "day_of_year" ∈ auxCoordNames sf.cube
      ∧ "month_number" ∈ auxCoordNames sf.cube ∧ "year" ∈ auxCoordNames sf.cube := by
  unfold add_auxiliar_time_coordinates bindM getS at h
  obtain ⟨s1, h1, hrest1⟩ := seqM_ok_inv _ _ _ _ u h
  obtain ⟨s2, h2, hrest2⟩ := seqM_ok_inv _ _ _ _ u hrest1
  obtain ⟨s3, h3, h4⟩ := seqM_ok_inv _ _ _ _ u hrest2
  have a1 := aux_step_ok (auxCoordNames s.cube) "day_of_month" s s1 () h1
  have a2 := aux_step_ok (auxCoordNames s.cube) "day_of_year" s1 s2 () h2
  have a3 := aux_step_ok (auxCoordNames s.cube) "month_number" s2 s3 () h3
  have a4 := aux_step_ok (auxCoordNames s.cube) "year" s3 sf u h4
  have mono123 : ∀ m, m ∈ auxCoordNames s.cube → m ∈ auxCoordNames sf.cube := by
    intro m hm
    exact a4.1 m (a3.1 m (a2.1 m (a1.1 m hm)))
  have mono234 : ∀ m, m ∈ auxCoordNames s1.cube → m ∈ auxCoordNames sf.cube := by
    intro m hm
    exact a4.1 m (a3.1 m (a2.1 m hm))
  have mono34 : ∀ m, m ∈ auxCoordNames s2.cube → m ∈ auxCoordNames sf.cube := by
    intro m hm
    exact a4.1 m (a3.1 m hm)
  refine ⟨?_, ?_, ?_, ?_⟩
  · cases hg : (auxCoordNames s.cube).contains "day_of_month" with
    | true => exact mono123 _ (List.mem_of_elem_eq_true hg)
    | false => exact mono234 _ (a1.2 hg)
  · cases hg : (auxCoordNames s.cube).contains "day_of_year" with
    | true => exact mono123 _ (List.mem_of_elem_eq_true hg)
    | false => exact mono34 _ (a2.2 hg)
  · cases hg : (auxCoordNames s.cube).contains "month_number" with
    | true => exact mono123 _ (List.mem_of_elem_eq_true hg)
    | false => exact a4.1 _ (a3.2 hg)
  · cases hg : (auxCoordNames s.cube).contains "year" with
    | true => exact mono123 _ (List.mem_of_elem_eq_true hg)
    | false => exact a4.2 hg

/-- A specification that declares no coordinates at all (in
particular, no time coordinate). -/
def wVinfoNoTime : VariableInfo :=
  { standard_name := "x", vunits := "K", positive := "", frequency := "mon",
    coordinates := [] }

/-- See `wVinfoNoTime`. -/
def wCfgNoTimeSpec : CheckerConfig :=
  { cmor_var := wVinfoNoTime, frequency := "mon", failerr := false,
    automatic_fixes := false }

/-- An auxiliary (non-dimension) time coordinate. -/
def wAuxTimeCoord : Coord :=
  { var_name := "time", standard_name := some "time", units := wTimeUnits,
    points := [0], cells := [{ month := 1, year := 1950 }],
    ndim := 1, dims := [], is_dim_coord := false }

/-- A cube whose only coordinate is the auxiliary time coordinate. -/
def wCubeAuxTime : Cube :=
  { var_name := "v", standard_name := some "x", units := plainUnit "K",
    attributes := [], coords := [wAuxTimeCoord], ndim := 0 }

/-- C10.  Whenever `check_metadata` returns without raising, the
returned cube carries all four auxiliary time-derived coordinates;
when all four are already present the attachment step does nothing at
all (each coordinate is added only if absent, and no lookup is even
attempted); and the attachment is attempted unconditionally after
error reporting — a specification declaring no time coordinate still
gets the four coordinates attached, as the concrete no-time-spec run
shows. -/
theorem claim_C10 (cfg : CheckerConfig) :
    (∀ (cube r : Cube) (s : CheckerState),
      checkMetadataRun cfg cube = (Except.ok r, s) →
        ("day_of_month" ∈ auxCoordNames r ∧ "day_of_year" ∈ auxCoordNames r
          ∧ "month_number" ∈ auxCoordNames r ∧ "year" ∈ auxCoordNames r))
    ∧ (∀ s : CheckerState,
        "day_of_month" ∈ auxCoordNames s.cube → "day_of_year" ∈ auxCoordNames s.cube →
        "month_number" ∈ auxCoordNames s.cube → "year" ∈ auxCoordNames s.cube →
          add_auxiliar_time_coordinates cfg s = (Except.ok (), s))
    ∧ (((checkMetadataRun wCfgNoTimeSpec wCubeAuxTime).1
          = Except.ok (checkMetadataRun wCfgNoTimeSpec wCubeAuxTime).2.cube)
        ∧ "day_of_month" ∈ auxCoordNames (checkMetadataRun wCfgNoTimeSpec wCubeAuxTime).2.cube
        ∧ "day_of_year" ∈ auxCoordNames (checkMetadataRun wCfgNoTimeSpec wCubeAuxTime).2.cube
        ∧ "month_number" ∈ auxCoordNames (checkMetadataRun wCfgNoTimeSpec wCubeAuxTime).2.cube
        ∧ "year" ∈ auxCoordNames (checkMetadataRun wCfgNoTimeSpec wCubeAuxTime).2.cube) := by
  refine ⟨?_, ?_, ?_⟩
  · intro cube r s hrun
    unfold checkMetadataRun at hrun
    cases hcm : check_metadata cfg (initState cube) with
    | mk r0 sfin =>
        rw [hcm] at hrun
        cases r0 with
        | error e => simp at hrun
        | ok u =>
            simp at hrun
            unfold check_metadata at hcm
            obtain ⟨s1, h1, hrest1⟩ := seqM_ok_inv _ _ _ _ u hcm
            obtain ⟨s2, h2, hrest2⟩ := seqM_ok_inv _ _ _ _ u hrest1
            obtain ⟨s3, h3, haux⟩ := seqM_ok_inv _ _ _ _ u hrest2
            have hnames := add_aux_ok_names cfg s3 sfin u haux
            rw [← hrun.1]
            exact hnames
  · intro s hm1 hm2 hm3 hm4
    have hc1 := List.elem_eq_true_of_mem hm1
    have hc2 := List.elem_eq_true_of_mem hm2
    have hc3 := List.elem_eq_true_of_mem hm3
    have hc4 := List.elem_eq_true_of_mem hm4
    unfold add_auxiliar_time_coordinates bindM getS
    simp [List.contains, hc1, hc2, hc3, hc4, hm1, hm2, hm3, hm4, seqM, bindM, pureM]
  · refine ⟨by rfl', ?_, ?_, ?_, ?_⟩ <;> exact List.mem_of_elem_eq_true (by rfl')

/-- Witness for C10: the fixture metadata run returns normally and its
result carries the four names; a state already carrying all four is
left untouched by the attachment step. -/
theorem claim_C10_witness :
    ("year" ∈ auxCoordNames (checkMetadataRun wCfg wCube).2.cube
      ∧ "day_of_month" ∈ auxCoordNames (checkMetadataRun wCfg wCube).2.cube)
    ∧ add_auxiliar_time_coordinates wCfg (checkMetadataRun wCfg wCube).2
      = (Except.ok (), (checkMetadataRun wCfg wCube).2) := by
  have hrun : checkMetadataRun wCfg wCube
      = (Except.ok (checkMetadataRun wCfg wCube).2.cube, (checkMetadataRun wCfg wCube).2) := by
    rfl'
  have hfour := (claim_C10 wCfg).1 wCube (checkMetadataRun wCfg wCube).2.cube
    (checkMetadataRun wCfg wCube).2 hrun
  refine ⟨⟨hfour.2.2.2, hfour.1⟩, ?_⟩
  exact (claim_C10 wCfg).2.1 (checkMetadataRun wCfg wCube).2
    hfour.1 hfour.2.1 hfour.2.2.1 hfour.2.2.2

/-! ## Clean-run infrastructure for C7 and C8 -/

/-- Over any state holding the cube `c`, the method returns normally,
leaves the cube at `c`, and appends no error (warnings and log are
unconstrained). -/
def StepOk (m : CheckM Unit) (c : Cube) : Prop :=
  ∀ s : CheckerState, s.cube = c →
    (m s).1 = Except.ok () ∧ ((m s).2).cube = c ∧ ((m s).2).errors = s.errors

theorem stepOk_pureM (c : Cube) : StepOk (pureM ()) c :=
  fun _ hs => ⟨rfl, hs, rfl⟩

theorem stepOk_seqM {m k : CheckM Unit} {c : Cube}
    (hm : StepOk m c) (hk : StepOk k c) : StepOk (seqM m k) c := by
  intro s hs
  obtain ⟨h1, h2, h3⟩ := hm s hs
  have heq : m s = (Except.ok (), (m s).2) := by
    rw [← h1]
  rw [seqM_shift _ _ _ _ heq]
  obtain ⟨g1, g2, g3⟩ := hk (m s).2 h2
  exact ⟨g1, g2, g3.trans h3⟩

theorem stepOk_forEachM {α : Type} {f : α → CheckM Unit} {c : Cube} :
    ∀ l : List α, (∀ a ∈ l, StepOk (f a) c) → StepOk (forEachM f l) c
  | [], _ => stepOk_pureM c
  | x :: xs, h =>
      stepOk_seqM (h x (List.mem_cons_self x xs))
        (stepOk_forEachM xs (fun a ha => h a (List.mem_cons_of_mem x ha)))

theorem stepOk_report_warning (cfg : CheckerConfig) (msg : String) (c : Cube) :
    StepOk (report_warning cfg msg) c := by
  intro s hs
  unfold report_warning
  by_cases h : cfg.failerr <;> simp [h, hs]

theorem stepOk_report_warnings (cfg : CheckerConfig) (c : Cube) :
    StepOk (report_warnings cfg) c := by
  intro s hs
  unfold report_warnings
  by_cases h : has_warnings s <;> simp [h, hs]

/-- `report_errors` passes exactly on an empty error list. -/
theorem report_errors_of_empty (cfg : CheckerConfig) (s : CheckerState)
    (h : s.errors = []) : report_errors cfg s = (Except.ok (), s) := by
  unfold report_errors
  simp [has_errors, h]

/-- A chained series passes the `mon` scan with the state untouched. -/
theorem mon_scan_of_chain (cfg : CheckerConfig) (v : String) :
    ∀ (cells : List MonthYear) (s : CheckerState),
      List.Chain' oneMonthApart cells → mon_scan cfg v cells s = (Except.ok (), s)
  | [], _, _ => rfl
  | [_], _, _ => rfl
  | a :: b :: rest, s, hchain => by
      have hmm : ¬ monMismatch a b :=
        (monMismatch_iff a b).mpr (List.chain'_cons.mp hchain).1
      rw [mon_scan, if_neg hmm]
      exact mon_scan_of_chain cfg v (b :: rest) s (List.chain'_cons.mp hchain).2

/-- A year-chained series passes the `yr` scan with the state
untouched. -/
theorem yr_scan_of_chain (cfg : CheckerConfig) (v : String) :
    ∀ (cells : List MonthYear) (s : CheckerState),
      List.Chain' (fun a b => a.year + 1 = b.year) cells →
        yr_scan cfg v cells s = (Except.ok (), s)
  | [], _, _ => rfl
  | [_], _, _ => rfl
  | a :: b :: rest, s, hchain => by
      have hpair : a.year + 1 = b.year := (List.chain'_cons.mp hchain).1
      rw [yr_scan, if_neg (by simp [hpair])]
      exact yr_scan_of_chain cfg v (b :: rest) s (List.chain'_cons.mp hchain).2

/-- A series whose gaps stay inside the closed target interval passes
the interval scan with the state untouched. -/
theorem interval_scan_of_chain (cfg : CheckerConfig) (v : String) (lo hi : Rat) :
    ∀ (pts : List Rat) (s : CheckerState),
      List.Chain' (gapInTarget lo hi) pts →
        interval_scan cfg v lo hi pts s = (Except.ok (), s)
  | [], _, _ => rfl
  | [_], _, _ => rfl
  | a :: b :: rest, s, hchain => by
      have hpair := (List.chain'_cons.mp hchain).1
      have hcond : ¬ (b - a < lo ∨ hi < b - a) := by
        rcases hpair with ⟨h1, h2⟩
        push_neg
        exact ⟨h1, h2⟩
      rw [interval_scan, if_neg hcond]
      exact interval_scan_of_chain cfg v lo hi (b :: rest) s (List.chain'_cons.mp hchain).2

/-- First-two-points direction consistency (an empty point array with
a declared direction would hit the source's out-of-bounds read). -/
def dirOk (ci : CoordinateInfo) (k : Coord) : Prop :=
  match k.points with
  | [] => ci.stored_direction = ""
  | [_] => True
  | a :: b :: _ =>
      (ci.stored_direction = "increasing" → a ≤ b)
      ∧ (ci.stored_direction = "decreasing" → b ≤ a)

/-- Per-coordinate pass conditions: normalized units, values inside
the declared range, monotonic points in the declared direction. -/
def coordClean (ci : CoordinateInfo) (k : Coord) : Prop :=
  (ci.cunits = "" ∨ k.units.uname = ci.cunits)
  ∧ (∀ vmin, ci.valid_min = some vmin →
      k.points.any (fun p => decide (p < vmin)) = false)
  ∧ (∀ vmax, ci.valid_max = some vmax →
      k.points.any (fun p => decide (vmax < p)) = false)
  ∧ isMonotonic k.points = true
  ∧ dirOk ci k

/-- The time series is consistent with the configured frequency. -/
def freqClean (cfg : CheckerConfig) (t : Coord) : Prop :=
  (cfg.frequency = "mon" ∧ List.Chain' oneMonthApart t.cells)
  ∨ (cfg.frequency = "yr" ∧ List.Chain' (fun a b => a.year + 1 = b.year) t.cells)
  ∨ (cfg.frequency = "dec"
      ∧ List.Chain' (gapInTarget (3600 - 1 / 1000) (3660 + 1 / 1000)) t.points)
  ∨ (cfg.frequency = "day"
      ∧ List.Chain' (gapInTarget (1 - 1 / 1000) (1 + 1 / 1000)) t.points)
  ∨ (cfg.frequency ≠ "mon" ∧ cfg.frequency ≠ "yr" ∧ cfg.frequency ≠ "dec"
      ∧ cfg.frequency ≠ "day" ∧ strEndsWith cfg.frequency "hr" = true
      ∧ ∃ lo hi, hrTarget cfg.frequency = some (lo, hi)
        ∧ List.Chain' (gapInTarget lo hi) t.points)

/-- The time coordinate (when present as a dimension coordinate) is
already normalized — reference epoch 1950, identity conversion,
collapsed calendar — and frequency-consistent. -/
def timeClean (cfg : CheckerConfig) (c : Cube) : Prop :=
  ∀ t, findCoordName c "time" true = some t →
    (t.units.timeRef = true
      ∧ t.units.uname = "days since 1950-1-1 00:00:00"
      ∧ t.units.scaleToDays = 1 ∧ t.units.offsetDays = 0
      ∧ (∀ cal, t.units.calendar = some cal → simplify_calendar cal = cal)
      ∧ freqClean cfg t)

/-- A cube that matches its specification exactly, with units,
calendar and coordinate order normalized: every metadata sub-check
passes without repair, and the cube carries a coordinate named `time`
(required by the auxiliary-coordinate attachment). -/
def Clean (cfg : CheckerConfig) (c : Cube) : Prop :=
  (cfg.cmor_var.standard_name = "" ∨ c.standard_name = some cfg.cmor_var.standard_name)
  ∧ (cfg.automatic_fixes = false ∨ strLower (attrGetD c "invalid_units") ≠ "psu")
  ∧ (cfg.cmor_var.vunits = "" ∨ unitsConvertible c.units (get_effective_units cfg) = true)
  ∧ (cfg.cmor_var.positive = ""
      ∨ c.attributes.lookup "positive" = none
      ∨ c.attributes.lookup "positive" = some cfg.cmor_var.positive)
  ∧ (∀ ci ∈ cfg.cmor_var.coordinates, ci.generic_level = false →
      ∃ cc, findCoordVar c ci.out_name false = some cc
        ∧ cc.standard_name = some ci.standard_name)
  ∧ (∀ ci ∈ cfg.cmor_var.coordinates, ci.generic_level = false →
      ∀ k, findCoordVar c ci.out_name true = some k → coordClean ci k)
  ∧ timeClean cfg c
  ∧ c.ndim = rankOf cfg c
  ∧ (findCoordName c "time" false).isSome = true

theorem stepOk_check_standard_name (cfg : CheckerConfig) (c : Cube)
    (h : cfg.cmor_var.standard_name = ""
      ∨ c.standard_name = some cfg.cmor_var.standard_name) :
    StepOk (check_standard_name cfg) c := by
  intro s hs
  unfold check_standard_name bindM getS
  by_cases h1 : cfg.cmor_var.standard_name = ""
  · simp [h1, pureM, hs]
  · have h2 : c.standard_name = some cfg.cmor_var.standard_name := by
      rcases h with h | h
      · exact absurd h h1
      · exact h
    simp [h1, hs, h2, pureM]

theorem stepOk_check_psu_fix (cfg : CheckerConfig) (c : Cube)
    (h : cfg.automatic_fixes = false ∨ strLower (attrGetD c "invalid_units") ≠ "psu") :
    StepOk (check_psu_fix cfg) c := by
  intro s hs
  unfold check_psu_fix bindM getS
  have hcond : ¬ (cfg.automatic_fixes = true
      ∧ strLower (attrGetD c "invalid_units") = "psu") := by
    rcases h with h | h
    · intro hq
      rw [h] at hq
      exact absurd hq.1 (by simp)
    · intro hq
      exact h hq.2
  simp [hs, hcond, pureM]

theorem stepOk_check_units_convertible (cfg : CheckerConfig) (c : Cube)
    (h : cfg.cmor_var.vunits = ""
      ∨ unitsConvertible c.units (get_effective_units cfg) = true) :
    StepOk (check_units_convertible cfg) c := by
  intro s hs
  unfold check_units_convertible bindM getS
  by_cases h1 : cfg.cmor_var.vunits = ""
  · simp [h1, pureM, hs]
  · have h2 : unitsConvertible c.units (get_effective_units cfg) = true := by
      rcases h with h | h
      · exact absurd h h1
      · exact h
    simp [hs, h1, h2, pureM]

theorem stepOk_check_positive_attr (cfg : CheckerConfig) (c : Cube)
    (h : cfg.cmor_var.positive = ""
      ∨ c.attributes.lookup "positive" = none
      ∨ c.attributes.lookup "positive" = some cfg.cmor_var.positive) :
    StepOk (check_positive_attr cfg) c := by
  intro s hs
  unfold check_positive_attr bindM getS
  by_cases h1 : cfg.cmor_var.positive = ""
  · simp [h1, pureM, hs]
  · rcases h with h | h | h
    · exact absurd h h1
    · simp only [hs, h]
      rw [if_pos h1]
      exact (stepOk_report_warning cfg _ c) s hs
    · simp [hs, h1, h, pureM]

theorem stepOk_check_fill_value (cfg : CheckerConfig) (c : Cube) :
    StepOk (check_fill_value cfg) c := stepOk_pureM c

theorem stepOk_check_dim_names (cfg : CheckerConfig) (c : Cube)
    (h : ∀ ci ∈ cfg.cmor_var.coordinates, ci.generic_level = false →
      ∃ cc, findCoordVar c ci.out_name false = some cc
        ∧ cc.standard_name = some ci.standard_name) :
    StepOk (check_dim_names cfg) c := by
  unfold check_dim_names
  apply stepOk_forEachM
  intro ci hci
  intro s hs
  unfold check_dim_name bindM getS
  by_cases hg : ci.generic_level = true
  · simp [hg, pureM, hs]
  · have hg2 : ci.generic_level = false := by
      cases hgl : ci.generic_level
      · rfl
      · exact absurd hgl hg
    obtain ⟨cc, hfind, hstd⟩ := h ci hci hg2
    simp [hs, hg, hfind, hstd, pureM]

theorem stepOk_check_rank (cfg : CheckerConfig) (c : Cube)
    (h : c.ndim = rankOf cfg c) : StepOk (check_rank cfg) c := by
  intro s hs
  unfold check_rank bindM getS
  simp [hs, h, pureM]

theorem stepOk_check_requested_values (cfg : CheckerConfig)
    (ci : CoordinateInfo) (k : Coord) (v : String) (c : Cube) :
    StepOk (check_requested_values cfg ci k v) c := by
  unfold check_requested_values
  by_cases h : ci.requested = ([] : List Rat)
  · simp [h]
    exact stepOk_pureM c
  · simp [h]
    apply stepOk_forEachM
    intro p _
    by_cases hp : p ∈ k.points
    · rw [if_pos hp]
      exact stepOk_pureM c
    · rw [if_neg hp]
      exact stepOk_report_warning cfg _ c

/-- Stepping over a value-returning method known to return normally. -/
theorem bindM_shift {α β : Type} (m : CheckM α) (k : α → CheckM β)
    (s s1 : CheckerState) (a : α) (hm : m s = (Except.ok a, s1)) :
    bindM m k s = k a s1 := by
  unfold bindM
  rw [hm]

/-- Under an in-range coordinate the `valid_min` branch is inert. -/
theorem valid_min_step_inert (cfg : CheckerConfig) (ci : CoordinateInfo)
    (k : Coord) (v : String) (s : CheckerState)
    (h : ∀ vmin, ci.valid_min = some vmin →
      k.points.any (fun p => decide (p < vmin)) = false) :
    valid_min_step cfg ci k v s = (Except.ok false, s) := by
  unfold valid_min_step
  cases hv : ci.valid_min with
  | none => rfl
  | some vmin =>
      have hany := h vmin hv
      simp [hany, pureM]

/-- See `valid_min_step_inert`. -/
theorem valid_max_step_inert (cfg : CheckerConfig) (ci : CoordinateInfo)
    (k : Coord) (v : String) (s : CheckerState)
    (h : ∀ vmax, ci.valid_max = some vmax →
      k.points.any (fun p => decide (vmax < p)) = false) :
    valid_max_step cfg ci k v s = (Except.ok false, s) := by
  unfold valid_max_step
  cases hv : ci.valid_max with
  | none => rfl
  | some vmax =>
      have hany := h vmax hv
      simp [hany, pureM]

/-- Under already-normalized units the units step of `_check_coord`
is inert. -/
theorem coord_units_step_inert (cfg : CheckerConfig) (ci : CoordinateInfo)
    (k : Coord) (v : String) (s : CheckerState)
    (h : ci.cunits = "" ∨ k.units.uname = ci.cunits) :
    coord_units_step cfg ci k v s = (Except.ok k, s) := by
  unfold coord_units_step
  have hcond : ¬ (ci.cunits ≠ "" ∧ k.units.uname ≠ ci.cunits) := by
    rcases h with h | h
    · intro hq
      exact hq.1 h
    · intro hq
      exact hq.2 h
  rw [if_neg hcond]
  rfl

/-- A monotonic coordinate whose first two points agree with the
declared direction passes the monotonicity check untouched. -/
theorem monotonicity_check_inert (cfg : CheckerConfig) (ci : CoordinateInfo)
    (k : Coord) (v : String) (s : CheckerState)
    (hmono : isMonotonic k.points = true) (hdir : dirOk ci k) :
    check_coord_monotonicity_and_direction cfg ci k v s = (Except.ok (), s) := by
  unfold check_coord_monotonicity_and_direction
  rw [seqM_shift _ _ _ s (by simp [hmono, pureM])]
  by_cases hlen : k.points.length = 1
  · simp [hlen, pureM]
  · rw [if_neg hlen]
    by_cases hsd : ci.stored_direction = ""
    · simp [hsd, pureM]
    · rw [if_pos hsd]
      unfold dirOk at hdir
      by_cases hinc : ci.stored_direction = "increasing"
      · rw [if_pos hinc]
        unfold direction_step
        cases hpts : k.points with
        | nil =>
            rw [hpts] at hdir
            exact absurd hdir hsd
        | cons a rest =>
            cases rest with
            | nil =>
                rw [hpts] at hlen
                exact absurd rfl hlen
            | cons b rest2 =>
                rw [hpts] at hdir
                have hle : a ≤ b := hdir.1 hinc
                simp [not_lt.mpr hle, pureM]
      · rw [if_neg hinc]
        by_cases hdec : ci.stored_direction = "decreasing"
        · rw [if_pos hdec]
          unfold direction_step
          cases hpts : k.points with
          | nil =>
              rw [hpts] at hdir
              exact absurd hdir hsd
          | cons a rest =>
              cases rest with
              | nil =>
                  rw [hpts] at hlen
                  exact absurd rfl hlen
              | cons b rest2 =>
                  rw [hpts] at hdir
                  have hle : b ≤ a := hdir.2 hdec
                  simp [not_lt.mpr hle, pureM]
        · simp [hdec, pureM]

/-- Under `coordClean` the whole per-coordinate check is a no-op up
to warnings. -/
theorem stepOk_check_coord (cfg : CheckerConfig) (ci : CoordinateInfo)
    (k : Coord) (v : String) (c : Cube) (hc : coordClean ci k) :
    StepOk (check_coord cfg ci k v) c := by
  obtain ⟨hu, hmin, hmax, hmono, hdir⟩ := hc
  unfold check_coord
  by_cases ht : k.var_name = "time"
  · rw [if_pos ht]
    exact stepOk_pureM c
  · rw [if_neg ht]
    intro s hs
    rw [bindM_shift _ _ s s k (coord_units_step_inert cfg ci k v s hu)]
    have hvals : StepOk (check_coord_values cfg ci k v) c := by
      intro s2 hs2
      unfold check_coord_values
      obtain ⟨r1, r2, r3⟩ := stepOk_check_requested_values cfg ci k v c s2 hs2
      have hreq : check_requested_values cfg ci k v s2
          = (Except.ok (), (check_requested_values cfg ci k v s2).2) := by
        rw [← r1]
      rw [seqM_shift _ _ _ _ hreq]
      set s3 := (check_requested_values cfg ci k v s2).2 with hs3
      rw [bindM_shift _ _ s3 s3 false (valid_min_step_inert cfg ci k v s3 hmin)]
      rw [bindM_shift _ _ s3 s3 false (valid_max_step_inert cfg ci k v s3 hmax)]
      simp [pureM, r2, r3]
    have hmonostep : StepOk (check_coord_monotonicity_and_direction cfg ci k v) c := by
      intro s2 hs2
      rw [monotonicity_check_inert cfg ci k v s2 hmono hdir]
      exact ⟨rfl, hs2, rfl⟩
    have hsecond : StepOk (if cfg.automatic_fixes = false
        then check_coord_monotonicity_and_direction cfg ci k v else pureM ()) c := by
      by_cases hfix : cfg.automatic_fixes = false
      · rw [if_pos hfix]
        exact hmonostep
      · rw [if_neg hfix]
        exact stepOk_pureM c
    exact (stepOk_seqM hvals hsecond) s hs

theorem stepOk_getS_bind {k : CheckerState → CheckM Unit} {c : Cube}
    (h : ∀ s0, s0.cube = c → StepOk (k s0) c) : StepOk (bindM getS k) c :=
  fun s hs => (h s hs) s hs

theorem stepOk_check_coords (cfg : CheckerConfig) (c : Cube)
    (h : ∀ ci ∈ cfg.cmor_var.coordinates, ci.generic_level = false →
      ∀ k, findCoordVar c ci.out_name true = some k → coordClean ci k) :
    StepOk (check_coords cfg) c := by
  unfold check_coords
  apply stepOk_forEachM
  intro ci hci
  unfold check_coords_entry
  apply stepOk_getS_bind
  intro s0 hs0
  rw [hs0]
  by_cases hg : ci.generic_level = true
  · rw [if_pos hg]
    exact stepOk_pureM c
  · have hg2 : ci.generic_level = false := by
      cases hgl : ci.generic_level
      · rfl
      · exact absurd hgl hg
    rw [if_neg hg]
    cases hfind : findCoordVar c ci.out_name true with
    | none => exact stepOk_pureM c
    | some k => exact stepOk_check_coord cfg ci k ci.out_name c (h ci hci hg2 k hfind)

theorem stepOk_check_coords_data (cfg : CheckerConfig) (c : Cube)
    (h : ∀ ci ∈ cfg.cmor_var.coordinates, ci.generic_level = false →
      ∀ k, findCoordVar c ci.out_name true = some k → coordClean ci k) :
    StepOk (check_coords_data cfg) c := by
  unfold check_coords_data
  apply stepOk_forEachM
  intro ci hci
  unfold check_coords_data_entry
  apply stepOk_getS_bind
  intro s0 hs0
  rw [hs0]
  by_cases hg : ci.generic_level = true
  · rw [if_pos hg]
    exact stepOk_pureM c
  · have hg2 : ci.generic_level = false := by
      cases hgl : ci.generic_level
      · rfl
      · exact absurd hgl hg
    rw [if_neg hg]
    cases hfind : findCoordVar c ci.out_name true with
    | none => exact stepOk_pureM c
    | some k =>
        have hcc := h ci hci hg2 k hfind
        have hstep : StepOk (check_coord_monotonicity_and_direction cfg ci k ci.out_name) c := by
          intro s hs
          rw [monotonicity_check_inert cfg ci k ci.out_name s hcc.2.2.2.1 hcc.2.2.2.2]
          exact ⟨rfl, hs, rfl⟩
        exact hstep

/-- Replacing the first element satisfying `p` by itself is the
identity. -/
theorem replaceF_self {p : Coord → Prop} [DecidablePred p] :
    ∀ (l : List Coord) (t : Coord),
      l.find? (fun k => decide (p k)) = some t →
        l.replaceF (fun k => if p k then some t else none) = l
  | [], t, h => by simp at h
  | a :: l, t, h => by
      by_cases hp : p a
      · rw [List.find?_cons_of_pos _ (by simp [hp])] at h
        have hta : t = a := by
          simpa using h.symm
        unfold List.replaceF
        rw [if_pos hp, hta]
      · rw [List.find?_cons_of_neg _ (by simp [hp])] at h
        unfold List.replaceF
        rw [if_neg hp]
        rw [replaceF_self l t h]

/-- Replacing the time coordinate by itself leaves the cube as it
was. -/
theorem updateCoordNameDim_self (c : Cube) (n : String) (t : Coord)
    (hfind : findCoordName c n true = some t) :
    updateCoordNameDim c n t = c := by
  unfold findCoordName at hfind
  unfold updateCoordNameDim
  cases hstd : c.coords.find? (fun k =>
      k.standard_name = some n ∧ (true = false ∨ k.is_dim_coord = true)) with
  | some s0 =>
      rw [hstd] at hfind
      have hts : t = s0 := by
        simpa using hfind.symm
      rw [hts]
      have := replaceF_self (p := fun k =>
        k.standard_name = some n ∧ (true = false ∨ k.is_dim_coord = true)) c.coords s0 hstd
      cases c with
      | mk v sn u a co nd => simpa using this
  | none =>
      rw [hstd] at hfind
      have := replaceF_self (p := fun k =>
        k.var_name = n ∧ (true = false ∨ k.is_dim_coord = true)) c.coords t hfind
      cases c with
      | mk v sn u a co nd => simpa using this

/-- Writing back the cube a state already holds is the identity. -/
theorem state_set_cube_self (s : CheckerState) (c : Cube) (h : s.cube = c) :
    { s with cube := c } = s := by
  cases s with
  | mk cu e w l =>
      simp at h
      rw [h]

/-- An already-normalized time coordinate is a fixed point of the
normalization. -/
theorem normalizeTimeCoord_id (t : Coord)
    (h1 : t.units.uname = "days since 1950-1-1 00:00:00")
    (h2 : t.units.timeRef = true)
    (h3 : t.units.scaleToDays = 1) (h4 : t.units.offsetDays = 0)
    (hcal : ∀ cal, t.units.calendar = some cal → simplify_calendar cal = cal) :
    normalizeTimeCoord t = t := by
  cases t with
  | mk vn sn u pts cells nd ds d =>
      cases u with
      | mk un cal tr sc off =>
          dsimp only at h1 h2 h3 h4 hcal
          subst h1
          subst h2
          subst h3
          subst h4
          have hmap : pts.map (fun p : Rat => p * 1 + 0) = pts := by
            have hfun : (fun p : Rat => p * 1 + 0) = fun p : Rat => p := by
              funext p
              ring
            rw [hfun, List.map_id']
          have hcal2 : Option.map simplify_calendar cal = cal := by
            cases hcase : cal with
            | none => rfl
            | some ca => simp [hcal ca hcase]
          unfold normalizeTimeCoord
          simp [hmap, hcal2]

/-- Under `freqClean` the frequency dispatch accepts with the state
untouched. -/
theorem freq_scan_clean (cfg : CheckerConfig) (v : String) (t : Coord)
    (h : freqClean cfg t) (s : CheckerState) :
    freq_scan cfg v t s = (Except.ok (), s) := by
  unfold freqClean at h
  rcases h with ⟨hf, hch⟩ | ⟨hf, hch⟩ | ⟨hf, hch⟩ | ⟨hf, hch⟩ | ⟨h1, h2, h3, h4, hends, lo, hi, htgt, hch⟩
  · unfold freq_scan
    rw [if_pos hf]
    exact mon_scan_of_chain cfg v t.cells s hch
  · unfold freq_scan
    rw [if_neg (by simp [hf]), if_pos hf]
    exact yr_scan_of_chain cfg v t.cells s hch
  · unfold freq_scan
    rw [if_neg (by simp [hf]), if_neg (by simp [hf]), if_pos hf]
    exact interval_scan_of_chain cfg v _ _ t.points s hch
  · unfold freq_scan
    rw [if_neg (by simp [hf]), if_neg (by simp [hf]), if_neg (by simp [hf]), if_pos hf]
    exact interval_scan_of_chain cfg v _ _ t.points s hch
  · unfold freq_scan
    rw [if_neg h1, if_neg h2, if_neg h3, if_neg h4, if_pos hends, htgt]
    exact interval_scan_of_chain cfg v lo hi t.points s hch

/-- Under `timeClean` the whole time check is inert. -/
theorem stepOk_check_time_coord (cfg : CheckerConfig) (c : Cube)
    (h : timeClean cfg c) : StepOk (check_time_coord cfg) c := by
  unfold check_time_coord
  apply stepOk_getS_bind
  intro s0 hs0
  rw [hs0]
  cases hfind : findCoordName c "time" true with
  | none => exact stepOk_pureM c
  | some t =>
      obtain ⟨htr, hu1, hsc, hoff, hcal, hfreq⟩ := h t hfind
      have hnorm : normalizeTimeCoord t = t :=
        normalizeTimeCoord_id t hu1 htr hsc hoff hcal
      have hstep : StepOk (seqM (modifyS (fun st =>
          { st with cube := updateCoordNameDim st.cube "time" (normalizeTimeCoord t) }))
          (freq_scan cfg t.var_name (normalizeTimeCoord t))) c := by
        intro s hs
        have hmod : modifyS (fun st =>
            { st with cube := updateCoordNameDim st.cube "time" (normalizeTimeCoord t) }) s
            = (Except.ok (), s) := by
          show (Except.ok (),
              { s with cube := updateCoordNameDim s.cube "time" (normalizeTimeCoord t) })
            = ((Except.ok (), s) : Except PyExn Unit × CheckerState)
          rw [hnorm, hs, updateCoordNameDim_self c "time" t hfind,
            state_set_cube_self s c hs]
        rw [seqM_shift _ _ _ _ hmod, hnorm, freq_scan_clean cfg t.var_name t hfreq s]
        exact ⟨rfl, hs, rfl⟩
      have hres : StepOk (if t.units.timeRef = false then
          seqM (report_error cfg (does_msg t.var_name "have time reference units"))
            (freq_scan cfg t.var_name t)
        else
          seqM (modifyS (fun st =>
            { st with cube := updateCoordNameDim st.cube "time" (normalizeTimeCoord t) }))
            (freq_scan cfg t.var_name (normalizeTimeCoord t))) c := by
        rw [if_neg (by simp [htr])]
        exact hstep
      exact hres

/-! ## Cube extension by appended auxiliary coordinates -/

/-- `find?` keeps the first hit when the list grows on the right. -/
theorem find_first_append {α : Type} (p : α → Bool) :
    ∀ (l1 l2 : List α) (x : α), l1.find? p = some x → (l1 ++ l2).find? p = some x
  | [], _, _, h => by simp [List.find?] at h
  | a :: l, l2, x, h => by
      rw [List.cons_append]
      cases hp : p a with
      | true =>
          rw [List.find?_cons_of_pos _ hp] at h
          rw [List.find?_cons_of_pos _ hp]
          exact h
      | false =>
          rw [List.find?_cons_of_neg _ (by simp [hp])] at h
          rw [List.find?_cons_of_neg _ (by simp [hp])]
          exact find_first_append p l l2 x h

/-- `find?` over an append falls through to the right part when the
left part has no hit. -/
theorem find_none_append {α : Type} (p : α → Bool) :
    ∀ (l1 l2 : List α), l1.find? p = none → (l1 ++ l2).find? p = l2.find? p
  | [], _, _ => rfl
  | a :: l, l2, h => by
      rw [List.cons_append]
      cases hp : p a with
      | true =>
          rw [List.find?_cons_of_pos _ hp] at h
          exact absurd h (by simp)
      | false =>
          rw [List.find?_cons_of_neg _ (by simp [hp])] at h
          rw [List.find?_cons_of_neg _ (by simp [hp])]
          exact find_none_append p l l2 h

/-- A member satisfying the predicate makes `find?` succeed. -/
theorem find_isSome_of_mem {α : Type} (p : α → Bool) :
    ∀ (l : List α) (x : α), x ∈ l → p x = true → (l.find? p).isSome = true
  | [], x, hx, _ => absurd hx (List.not_mem_nil x)
  | a :: l, x, hx, hp => by
      cases hpa : p a with
      | true =>
          rw [List.find?_cons_of_pos _ hpa]
          rfl
      | false =>
          rw [List.find?_cons_of_neg _ (by simp [hpa])]
          rcases List.mem_cons.mp hx with h | h
          · subst h
            rw [hpa] at hp
            exact absurd hp (by simp)
          · exact find_isSome_of_mem p l x h hp

/-- The shape of the cube produced by
`_add_auxiliar_time_coordinates`: the original cube with derived
auxiliary (non-dimension, standard-name-free) coordinates appended. -/
def CoordAppendExt (c d : Cube) : Prop :=
  ∃ ks : List Coord,
    d = { c with coords := c.coords ++ ks }
    ∧ ∀ k ∈ ks, k.is_dim_coord = false ∧ k.standard_name = none

theorem coordAppendExt_refl (c : Cube) : CoordAppendExt c c :=
  ⟨[], by cases c with | mk v sn u a co nd => simp,
    fun k hk => absurd hk (List.not_mem_nil k)⟩

theorem coordAppendExt_trans {c d e : Cube}
    (h1 : CoordAppendExt c d) (h2 : CoordAppendExt d e) : CoordAppendExt c e := by
  obtain ⟨ks1, hd1, hk1⟩ := h1
  obtain ⟨ks2, hd2, hk2⟩ := h2
  refine ⟨ks1 ++ ks2, ?_, ?_⟩
  · rw [hd2, hd1]
    cases c with
    | mk v sn u a co nd => simp
  · intro k hk
    rcases List.mem_append.mp hk with h | h
    · exact hk1 k h
    · exact hk2 k h

/-- A by-var-name lookup hit survives appending coordinates. -/
theorem findCoordVar_ext_found (c d : Cube) (v : String) (cc : Coord)
    (hext : CoordAppendExt c d) (h : findCoordVar c v false = some cc) :
    findCoordVar d v false = some cc := by
  obtain ⟨ks, hd, hks⟩ := hext
  have hco : d.coords = c.coords ++ ks := by rw [hd]
  unfold findCoordVar at h ⊢
  rw [hco]
  exact find_first_append _ _ _ _ h

/-- Appending non-dimension coordinates does not change dimension-only
by-var-name lookup. -/
theorem findCoordVar_ext_dim_eq (c d : Cube) (v : String)
    (hext : CoordAppendExt c d) :
    findCoordVar d v true = findCoordVar c v true := by
  obtain ⟨ks, hd, hks⟩ := hext
  have hco : d.coords = c.coords ++ ks := by rw [hd]
  unfold findCoordVar
  rw [hco]
  cases hc : c.coords.find?
      (fun k => k.var_name = v ∧ (true = false ∨ k.is_dim_coord = true)) with
  | some k => exact find_first_append _ _ _ _ hc
  | none =>
      rw [find_none_append _ _ _ hc]
      exact List.find?_eq_none.mpr (fun x hx => by simp [(hks x hx).1])

/-- An iris-name lookup hit survives appending standard-name-free
coordinates. -/
theorem findCoordName_ext_found (c d : Cube) (n : String) (k : Coord)
    (hext : CoordAppendExt c d) (h : findCoordName c n false = some k) :
    findCoordName d n false = some k := by
  obtain ⟨ks, hd, hks⟩ := hext
  have hco : d.coords = c.coords ++ ks := by rw [hd]
  unfold findCoordName at h ⊢
  rw [hco]
  cases hs : c.coords.find?
      (fun q => q.standard_name = some n ∧ (false = false ∨ q.is_dim_coord = true)) with
  | some k0 =>
      rw [hs] at h
      rw [find_first_append _ _ _ _ hs]
      exact h
  | none =>
      rw [hs] at h
      have hvar : c.coords.find?
          (fun q => q.var_name = n ∧ (false = false ∨ q.is_dim_coord = true)) = some k := h
      have hstdks : ks.find?
          (fun q => q.standard_name = some n ∧ (false = false ∨ q.is_dim_coord = true))
            = none :=
        List.find?_eq_none.mpr (fun x hx => by simp [(hks x hx).2])
      rw [find_none_append _ _ _ hs, hstdks]
      exact find_first_append _ _ _ _ hvar

/-- Appending non-dimension coordinates does not change dimension-only
iris-name lookup. -/
theorem findCoordName_ext_dim_eq (c d : Cube) (n : String)
    (hext : CoordAppendExt c d) :
    findCoordName d n true = findCoordName c n true := by
  obtain ⟨ks, hd, hks⟩ := hext
  have hco : d.coords = c.coords ++ ks := by rw [hd]
  unfold findCoordName
  rw [hco]
  cases hs : c.coords.find?
      (fun q => q.standard_name = some n ∧ (true = false ∨ q.is_dim_coord = true)) with
  | some k0 =>
      rw [find_first_append _ _ _ _ hs]
  | none =>
      have hstdks : ks.find?
          (fun q => q.standard_name = some n ∧ (true = false ∨ q.is_dim_coord = true))
            = none :=
        List.find?_eq_none.mpr (fun x hx => by simp [(hks x hx).1])
      rw [find_none_append _ _ _ hs, hstdks]
      cases hv : c.coords.find?
          (fun q => q.var_name = n ∧ (true = false ∨ q.is_dim_coord = true)) with
      | some k0 => exact find_first_append _ _ _ _ hv
      | none =>
          rw [find_none_append _ _ _ hv]
          exact List.find?_eq_none.mpr (fun x hx => by simp [(hks x hx).1])

/-- When the cube already holds a coordinate with the wanted standard
name, the full iris-name lookup is unchanged by appending
standard-name-free coordinates. -/
theorem findCoordName_ext_eq_of_std (c d : Cube) (n : String)
    (hext : CoordAppendExt c d)
    (hmem : ∃ cc ∈ c.coords, cc.standard_name = some n) :
    findCoordName d n false = findCoordName c n false := by
  obtain ⟨ks, hd, hks⟩ := hext
  have hco : d.coords = c.coords ++ ks := by rw [hd]
  obtain ⟨cc, hccmem, hccstd⟩ := hmem
  have hsome : (c.coords.find? (fun q =>
      q.standard_name = some n ∧ (false = false ∨ q.is_dim_coord = true))).isSome
        = true :=
    find_isSome_of_mem _ c.coords cc hccmem (by simp [hccstd])
  obtain ⟨k0, hk0⟩ := Option.isSome_iff_exists.mp hsome
  unfold findCoordName
  rw [hco, find_first_append _ _ _ _ hk0, hk0]

/-- A coordinate named `time` stays findable after appending. -/
theorem time_present_ext (c d : Cube) (hext : CoordAppendExt c d)
    (ht : (findCoordName c "time" false).isSome = true) :
    (findCoordName d "time" false).isSome = true := by
  obtain ⟨k, hk⟩ := Option.isSome_iff_exists.mp ht
  rw [findCoordName_ext_found c d "time" k hext hk]
  rfl

/-- The rank computation is unchanged by the auxiliary-coordinate
appends, provided every declared coordinate is present on the cube
under its standard name (the `_check_dim_names` pass condition). -/
theorem rankOf_ext (cfg : CheckerConfig) (c d : Cube) (hext : CoordAppendExt c d)
    (h : ∀ ci ∈ cfg.cmor_var.coordinates, ci.generic_level = false →
      ∃ cc, findCoordVar c ci.out_name false = some cc
        ∧ cc.standard_name = some ci.standard_name) :
    rankOf cfg d = rankOf cfg c := by
  have hfold : ∀ (l : List CoordinateInfo),
      (∀ ci ∈ l, ci.generic_level = false →
        ∃ cc, findCoordVar c ci.out_name false = some cc
          ∧ cc.standard_name = some ci.standard_name) →
      ∀ acc : List Nat,
        List.foldl (fun acc ci =>
          if ci.generic_level = false ∧ ci.value = "" then
            match coordDimsByName d ci.standard_name with
            | some ds => acc ++ ds
            | none => acc
          else acc) acc l
        = List.foldl (fun acc ci =>
          if ci.generic_level = false ∧ ci.value = "" then
            match coordDimsByName c ci.standard_name with
            | some ds => acc ++ ds
            | none => acc
          else acc) acc l := by
    intro l
    induction l with
    | nil =>
        intro _ _
        rfl
    | cons ci rest ih =>
        intro hl acc
        rw [List.foldl_cons, List.foldl_cons]
        have htail := ih (fun x hx hg => hl x (List.mem_cons_of_mem ci hx) hg)
        by_cases hg : ci.generic_level = false ∧ ci.value = ""
        · have hdims : coordDimsByName d ci.standard_name
              = coordDimsByName c ci.standard_name := by
            obtain ⟨cc, hfind, hstd⟩ := hl ci (List.mem_cons_self ci rest) hg.1
            have hccmem : cc ∈ c.coords := by
              unfold findCoordVar at hfind
              exact List.mem_of_find?_eq_some hfind
            unfold coordDimsByName
            rw [findCoordName_ext_eq_of_std c d ci.standard_name hext
              ⟨cc, hccmem, hstd⟩]
          rw [if_pos hg, if_pos hg, hdims]
          exact htail _
        · rw [if_neg hg, if_neg hg]
          exact htail _
  have hmain := hfold cfg.cmor_var.coordinates h []
  show (cfg.cmor_var.coordinates.filter (fun ci => ci.generic_level = true)).length
      + (List.foldl (fun acc ci =>
          if ci.generic_level = false ∧ ci.value = "" then
            match coordDimsByName d ci.standard_name with
            | some ds => acc ++ ds
            | none => acc
          else acc) [] cfg.cmor_var.coordinates).eraseDups.length
    = (cfg.cmor_var.coordinates.filter (fun ci => ci.generic_level = true)).length
      + (List.foldl (fun acc ci =>
          if ci.generic_level = false ∧ ci.value = "" then
            match coordDimsByName c ci.standard_name with
            | some ds => acc ++ ds
            | none => acc
          else acc) [] cfg.cmor_var.coordinates).eraseDups.length
  rw [hmain]

/-- All pass conditions survive the auxiliary-coordinate appends. -/
theorem clean_ext (cfg : CheckerConfig) (c d : Cube)
    (hext : CoordAppendExt c d) (hclean : Clean cfg c) : Clean cfg d := by
  obtain ⟨h1, h2, h3, h4, h5, h6, h7, h8, h9⟩ := hclean
  obtain ⟨ks, hd, hks⟩ := hext
  have hstd : d.standard_name = c.standard_name := by rw [hd]
  have hunits : d.units = c.units := by rw [hd]
  have hattrs : d.attributes = c.attributes := by rw [hd]
  have hndim : d.ndim = c.ndim := by rw [hd]
  refine ⟨?_, ?_, ?_, ?_, ?_, ?_, ?_, ?_, ?_⟩
  · rcases h1 with h | h
    · exact Or.inl h
    · exact Or.inr (by rw [hstd]; exact h)
  · rcases h2 with h | h
    · exact Or.inl h
    · refine Or.inr ?_
      have hag : attrGetD d "invalid_units" = attrGetD c "invalid_units" := by
        unfold attrGetD
        rw [hattrs]
      rw [hag]
      exact h
  · rcases h3 with h | h
    · exact Or.inl h
    · exact Or.inr (by rw [hunits]; exact h)
  · rcases h4 with h | h | h
    · exact Or.inl h
    · exact Or.inr (Or.inl (by rw [hattrs]; exact h))
    · exact Or.inr (Or.inr (by rw [hattrs]; exact h))
  · intro ci hci hg
    obtain ⟨cc, hfind, hcs⟩ := h5 ci hci hg
    exact ⟨cc, findCoordVar_ext_found c d ci.out_name cc ⟨ks, hd, hks⟩ hfind, hcs⟩
  · intro ci hci hg k hfind
    apply h6 ci hci hg k
    rw [← hfind]
    exact (findCoordVar_ext_dim_eq c d ci.out_name ⟨ks, hd, hks⟩).symm
  · intro t ht
    apply h7 t
    rw [← ht]
    exact (findCoordName_ext_dim_eq c d "time" ⟨ks, hd, hks⟩).symm
  · rw [hndim, h8]
    exact (rankOf_ext cfg c d ⟨ks, hd, hks⟩ h5).symm
  · obtain ⟨k, hk⟩ := Option.isSome_iff_exists.mp h9
    rw [findCoordName_ext_found c d "time" k ⟨ks, hd, hks⟩ hk]
    rfl

/-- One guarded addition step of `_add_auxiliar_time_coordinates`,
on a cube that carries a `time` coordinate: normal return, and the
cube grows by at most one derived auxiliary coordinate. -/
theorem aux_step_run (names : List String) (nm : String) (s : CheckerState)
    (ht : (findCoordName s.cube "time" false).isSome = true) :
    ∃ d, (if names.contains nm then pureM () else addCategorised nm) s
        = (Except.ok (), { s with cube := d })
      ∧ CoordAppendExt s.cube d := by
  by_cases hc : names.contains nm = true
  · refine ⟨s.cube, ?_, coordAppendExt_refl s.cube⟩
    rw [if_pos hc, state_set_cube_self s s.cube rfl]
    rfl
  · obtain ⟨t, hfindt⟩ := Option.isSome_iff_exists.mp ht
    refine ⟨{ s.cube with coords := s.cube.coords ++ [categorisedCoord nm t] }, ?_, ?_⟩
    · rw [if_neg hc, addCategorised_eval, hfindt]
    · exact ⟨[categorisedCoord nm t], rfl, fun k hk => by
        rw [List.mem_singleton] at hk
        subst hk
        exact ⟨rfl, rfl⟩⟩

/-- On a cube that carries a `time` coordinate the whole attachment
step returns normally, touches only the cube, and only appends derived
auxiliary coordinates. -/
theorem add_aux_clean_run (cfg : CheckerConfig) (s : CheckerState)
    (ht : (findCoordName s.cube "time" false).isSome = true) :
    ∃ d, add_auxiliar_time_coordinates cfg s = (Except.ok (), { s with cube := d })
      ∧ CoordAppendExt s.cube d := by
  have E0 : add_auxiliar_time_coordinates cfg s
      = seqM (if (auxCoordNames s.cube).contains "day_of_month" then pureM ()
            else addCategorised "day_of_month")
          (seqM (if (auxCoordNames s.cube).contains "day_of_year" then pureM ()
              else addCategorised "day_of_year")
            (seqM (if (auxCoordNames s.cube).contains "month_number" then pureM ()
                else addCategorised "month_number")
              (if (auxCoordNames s.cube).contains "year" then pureM ()
               else addCategorised "year"))) s := rfl
  obtain ⟨d1, e1, x1⟩ := aux_step_run (auxCoordNames s.cube) "day_of_month" s ht
  obtain ⟨d2, e2, x2⟩ := aux_step_run (auxCoordNames s.cube) "day_of_year"
    { s with cube := d1 } (time_present_ext s.cube d1 x1 ht)
  obtain ⟨d3, e3, x3⟩ := aux_step_run (auxCoordNames s.cube) "month_number"
    { { s with cube := d1 } with cube := d2 }
    (time_present_ext _ d2 x2 (time_present_ext s.cube d1 x1 ht))
  obtain ⟨d4, e4, x4⟩ := aux_step_run (auxCoordNames s.cube) "year"
    { { { s with cube := d1 } with cube := d2 } with cube := d3 }
    (time_present_ext _ d3 x3
      (time_present_ext _ d2 x2 (time_present_ext s.cube d1 x1 ht)))
  refine ⟨d4, ?_,
    coordAppendExt_trans (coordAppendExt_trans (coordAppendExt_trans x1 x2) x3) x4⟩
  rw [E0, seqM_shift _ _ _ _ e1, seqM_shift _ _ _ _ e2, seqM_shift _ _ _ _ e3]
  exact e4

/-- When all four derived names are already present the attachment
step is the identity (same proof as in the concrete claim about
it, kept standalone for reuse). -/
theorem add_aux_noop (cfg : CheckerConfig) (s : CheckerState)
    (hm1 : "day_of_month" ∈ auxCoordNames s.cube)
    (hm2 : "day_of_year" ∈ auxCoordNames s.cube)
    (hm3 : "month_number" ∈ auxCoordNames s.cube)
    (hm4 : "year" ∈ auxCoordNames s.cube) :
    add_auxiliar_time_coordinates cfg s = (Except.ok (), s) := by
  have hc1 := List.elem_eq_true_of_mem hm1
  have hc2 := List.elem_eq_true_of_mem hm2
  have hc3 := List.elem_eq_true_of_mem hm3
  have hc4 := List.elem_eq_true_of_mem hm4
  unfold add_auxiliar_time_coordinates bindM getS
  simp [List.contains, hc1, hc2, hc3, hc4, hm1, hm2, hm3, hm4, seqM, bindM, pureM]

/-- The metadata sub-checks leave a clean cube untouched and append
no error. -/
theorem stepOk_metadata_checks (cfg : CheckerConfig) (c : Cube)
    (h : Clean cfg c) : StepOk (metadata_checks cfg) c := by
  obtain ⟨h1, h2, h3, h4, h5, h6, h7, h8, h9⟩ := h
  unfold metadata_checks check_var_metadata
  exact stepOk_seqM (stepOk_seqM (stepOk_check_standard_name cfg c h1)
    (stepOk_seqM (stepOk_check_psu_fix cfg c h2)
      (stepOk_seqM (stepOk_check_units_convertible cfg c h3)
        (stepOk_check_positive_attr cfg c h4))))
    (stepOk_seqM (stepOk_check_fill_value cfg c)
      (stepOk_seqM (stepOk_check_dim_names cfg c h5)
        (stepOk_seqM (stepOk_check_coords cfg c h6)
          (stepOk_seqM (stepOk_check_time_coord cfg c h7)
            (stepOk_check_rank cfg c h8)))))

/-- A full `check_metadata` run from a clean cube and no accumulated
errors: normal return, still no errors, the cube extended only by the
derived auxiliary coordinates (all four then present), and unchanged
when all four were present already. -/
theorem check_metadata_clean (cfg : CheckerConfig) (c : Cube) (hclean : Clean cfg c)
    (s : CheckerState) (hs : s.cube = c) (he : s.errors = []) :
    ∃ sf, check_metadata cfg s = (Except.ok (), sf)
      ∧ sf.errors = [] ∧ CoordAppendExt c sf.cube
      ∧ "day_of_month" ∈ auxCoordNames sf.cube
      ∧ "day_of_year" ∈ auxCoordNames sf.cube
      ∧ "month_number" ∈ auxCoordNames sf.cube
      ∧ "year" ∈ auxCoordNames sf.cube
      ∧ ("day_of_month" ∈ auxCoordNames c → "day_of_year" ∈ auxCoordNames c →
          "month_number" ∈ auxCoordNames c → "year" ∈ auxCoordNames c →
            sf.cube = c) := by
  obtain ⟨m1, m2, m3⟩ := stepOk_metadata_checks cfg c hclean s hs
  have heq1 : metadata_checks cfg s = (Except.ok (), (metadata_checks cfg s).2) := by
    rw [← m1]
  obtain ⟨w1, w2, w3⟩ := stepOk_report_warnings cfg c (metadata_checks cfg s).2 m2
  have heq2 : report_warnings cfg (metadata_checks cfg s).2
      = (Except.ok (), (report_warnings cfg (metadata_checks cfg s).2).2) := by
    rw [← w1]
  set s2 := (report_warnings cfg (metadata_checks cfg s).2).2 with hs2def
  have he2 : s2.errors = [] := by
    rw [w3, m3]
    exact he
  have hcube2 : s2.cube = c := w2
  have htime : (findCoordName s2.cube "time" false).isSome = true := by
    rw [hcube2]
    exact hclean.2.2.2.2.2.2.2.2
  obtain ⟨d, hadd, hext⟩ := add_aux_clean_run cfg s2 htime
  have hnames := add_aux_ok_names cfg s2 { s2 with cube := d } () hadd
  refine ⟨{ s2 with cube := d }, ?_, he2, ?_,
    hnames.1, hnames.2.1, hnames.2.2.1, hnames.2.2.2, ?_⟩
  · unfold check_metadata
    rw [seqM_shift _ _ _ _ heq1, seqM_shift _ _ _ _ heq2,
      seqM_shift _ _ _ _ (report_errors_of_empty cfg s2 he2)]
    exact hadd
  · rw [← hcube2]
    exact hext
  · intro n1 n2 n3 n4
    have hnoop := add_aux_noop cfg s2 (by rw [hcube2]; exact n1)
      (by rw [hcube2]; exact n2) (by rw [hcube2]; exact n3) (by rw [hcube2]; exact n4)
    have hstates : ({ s2 with cube := d } : CheckerState) = s2 :=
      congrArg Prod.snd (hadd.symm.trans hnoop)
    have hdc : d = s2.cube := congrArg CheckerState.cube hstates
    show d = c
    rw [hdc, hcube2]

/-- The fixture cube satisfies every pass condition of the fixture
specification. -/
theorem wClean_wCfg_wCube : Clean wCfg wCube := by
  refine ⟨Or.inr rfl, Or.inl rfl, Or.inr (by rfl'), Or.inl rfl, ?_, ?_, ?_,
    by rfl', by rfl'⟩
  · intro ci hci hg
    have hco : wCfg.cmor_var.coordinates = [wCiTime, wCiLat] := rfl
    rw [hco] at hci
    rcases List.mem_cons.mp hci with h | h
    · subst h
      exact ⟨wTimeCoord, by rfl', rfl⟩
    · rw [List.mem_singleton] at h
      subst h
      exact ⟨wLatCoord, by rfl', rfl⟩
  · intro ci hci hg k hfind
    have hco : wCfg.cmor_var.coordinates = [wCiTime, wCiLat] := rfl
    rw [hco] at hci
    rcases List.mem_cons.mp hci with h | h
    · subst h
      have ht : findCoordVar wCube "time" true = some wTimeCoord := by rfl'
      have hw : some wTimeCoord = some k := ht.symm.trans hfind
      injection hw with hw2
      subst hw2
      refine ⟨Or.inr rfl, ?_, ?_, by rfl', ?_⟩
      · intro vmin hv
        exact absurd hv (by simp [wCiTime])
      · intro vmax hv
        exact absurd hv (by simp [wCiTime])
      · exact ⟨fun _ => by norm_num, fun hdec => by simp [wCiTime] at hdec⟩
    · rw [List.mem_singleton] at h
      subst h
      have ht : findCoordVar wCube "lat" true = some wLatCoord := by rfl'
      have hw : some wLatCoord = some k := ht.symm.trans hfind
      injection hw with hw2
      subst hw2
      refine ⟨Or.inr rfl, ?_, ?_, by rfl', ?_⟩
      · intro vmin hv
        have hv2 : (some (-90 : Rat) : Option Rat) = some vmin := hv
        injection hv2 with hv3
        rw [← hv3]
        rfl'
      · intro vmax hv
        have hv2 : (some (90 : Rat) : Option Rat) = some vmax := hv
        injection hv2 with hv3
        rw [← hv3]
        rfl'
      · exact ⟨fun _ => by norm_num, fun hdec => by simp [wCiLat] at hdec⟩
  · intro t ht
    have hfind : findCoordName wCube "time" true = some wTimeCoord := by rfl'
    have hw : some wTimeCoord = some t := hfind.symm.trans ht
    injection hw with hw2
    subst hw2
    refine ⟨rfl, rfl, rfl, rfl, ?_, ?_⟩
    · intro cal hcal
      have hc2 : (some "gregorian" : Option String) = some cal := hcal
      injection hc2 with hc3
      rw [← hc3]
      rfl
    · refine Or.inl ⟨rfl, ?_⟩
      show List.Chain' oneMonthApart
        [{ month := 1, year := 1950 }, { month := 2, year := 1950 }]
      simp [List.chain'_cons, List.chain'_singleton, oneMonthApart]

/-- C7.  `check_metadata` is idempotent on clean input: for every cube
that already passes every metadata check with units, calendar and
coordinate order normalized (`Clean`), a first `check_metadata` run
returns a cube on which a second run reports no error and performs no
further mutation — it returns the same cube and ends with an empty
error list. -/
theorem claim_C7 (cfg : CheckerConfig) (cube c1 : Cube) (s1 : CheckerState)
    (hclean : Clean cfg cube)
    (hrun1 : checkMetadataRun cfg cube = (Except.ok c1, s1)) :
    (checkMetadataRun cfg c1).1 = Except.ok c1
    ∧ (checkMetadataRun cfg c1).2.cube = c1
    ∧ (checkMetadataRun cfg c1).2.errors = [] := by
  obtain ⟨sf, hcm, herr, hext, hn1, hn2, hn3, hn4, hfx⟩ :=
    check_metadata_clean cfg cube hclean (initState cube) rfl rfl
  have hc1 : sf.cube = c1 := by
    unfold checkMetadataRun at hrun1
    rw [hcm] at hrun1
    simp at hrun1
    exact hrun1.1
  rw [← hc1]
  have hclean1 : Clean cfg sf.cube := clean_ext cfg cube sf.cube hext hclean
  obtain ⟨sf2, hcm2, herr2, hext2, g1, g2, g3, g4, hfix2⟩ :=
    check_metadata_clean cfg sf.cube hclean1 (initState sf.cube) rfl rfl
  have hsame : sf2.cube = sf.cube := hfix2 hn1 hn2 hn3 hn4
  unfold checkMetadataRun
  rw [hcm2]
  refine ⟨?_, ?_, ?_⟩
  · show Except.ok sf2.cube = Except.ok sf.cube
    rw [hsame]
  · show sf2.cube = sf.cube
    exact hsame
  · show sf2.errors = []
    exact herr2

/-- Witness for C7: the fixture cube is clean, its metadata run
returns normally, and the second run on the returned cube returns that
same cube with an empty error list. -/
theorem claim_C7_witness :
    (checkMetadataRun wCfg ((checkMetadataRun wCfg wCube).2.cube)).1
      = Except.ok ((checkMetadataRun wCfg wCube).2.cube)
    ∧ (checkMetadataRun wCfg ((checkMetadataRun wCfg wCube).2.cube)).2.errors = [] := by
  have h := claim_C7 wCfg wCube (checkMetadataRun wCfg wCube).2.cube
    (checkMetadataRun wCfg wCube).2 wClean_wCfg_wCube (by rfl')
  exact ⟨h.1, h.2.2⟩

/-- Unit-conversion step of `check_data` on a cube with convertible
units: normal return, coordinates untouched, final units at the
effective target whenever the specification declares units, identity
when it does not. -/
theorem convert_cube_units_clean (cfg : CheckerConfig) (c : Cube)
    (hconv : cfg.cmor_var.vunits = ""
      ∨ unitsConvertible c.units (get_effective_units cfg) = true)
    (s : CheckerState) (hs : s.cube = c) :
    ∃ cA, convert_cube_units cfg s = (Except.ok (), { s with cube := cA })
      ∧ cA.coords = c.coords
      ∧ (cfg.cmor_var.vunits ≠ "" → cA.units.uname = get_effective_units cfg)
      ∧ (cfg.cmor_var.vunits = "" → cA = c) := by
  unfold convert_cube_units bindM getS
  by_cases hv : cfg.cmor_var.vunits = ""
  · refine ⟨c, ?_, rfl, fun hne => absurd hv hne, fun _ => rfl⟩
    rw [state_set_cube_self s c hs]
    simp [hv, pureM]
  · by_cases heq : s.cube.units.uname = get_effective_units cfg
    · refine ⟨c, ?_, rfl, fun _ => ?_, fun h0 => absurd h0 hv⟩
      · rw [state_set_cube_self s c hs]
        simp [hv, heq, pureM]
      · rw [← hs]
        exact heq
    · have hcv : unitsConvertible c.units (get_effective_units cfg) = true := by
        rcases hconv with h0 | h0
        · exact absurd h0 hv
        · exact h0
      have hne : ¬ (c.units.uname = get_effective_units cfg) := by
        intro h0
        apply heq
        rw [hs]
        exact h0
      refine ⟨{ c with units := plainUnit (get_effective_units cfg) }, ?_, rfl,
        fun _ => rfl, fun h0 => absurd h0 hv⟩
      simp [hv, hs, hne, hcv, modifyS]

/-- A full `check_data` run from a clean cube and no accumulated
errors: normal return, no errors, cube converted to the effective
target units exactly when the specification declares units. -/
theorem check_data_clean (cfg : CheckerConfig) (c : Cube) (hclean : Clean cfg c)
    (s : CheckerState) (hs : s.cube = c) (he : s.errors = []) :
    ∃ sf, check_data cfg s = (Except.ok (), sf) ∧ sf.errors = []
      ∧ (cfg.cmor_var.vunits ≠ "" → sf.cube.units.uname = get_effective_units cfg)
      ∧ (cfg.cmor_var.vunits = "" → sf.cube = c) := by
  obtain ⟨cA, hcv, hcoords, hun, hid⟩ :=
    convert_cube_units_clean cfg c hclean.2.2.1 s hs
  unfold check_data
  rw [seqM_shift _ _ _ _ hcv]
  have hcd : StepOk (check_coords_data cfg) cA := by
    apply stepOk_check_coords_data
    intro ci hci hg k hfind
    have hfindc : findCoordVar c ci.out_name true = some k := by
      rw [← hfind]
      unfold findCoordVar
      rw [hcoords]
    exact hclean.2.2.2.2.2.1 ci hci hg k hfindc
  obtain ⟨p1, p2, p3⟩ := hcd { s with cube := cA } rfl
  have heq2 : check_coords_data cfg { s with cube := cA }
      = (Except.ok (), (check_coords_data cfg { s with cube := cA }).2) := by
    rw [← p1]
  rw [seqM_shift _ _ _ _ heq2]
  set s2 := (check_coords_data cfg { s with cube := cA }).2 with hs2def
  obtain ⟨q1, q2, q3⟩ := stepOk_report_warnings cfg cA s2 p2
  have heq3 : report_warnings cfg s2 = (Except.ok (), (report_warnings cfg s2).2) := by
    rw [← q1]
  rw [seqM_shift _ _ _ _ heq3]
  set s3 := (report_warnings cfg s2).2 with hs3def
  have he3 : s3.errors = [] := by
    rw [q3, p3]
    exact he
  rw [report_errors_of_empty cfg s3 he3]
  refine ⟨s3, rfl, he3, ?_, ?_⟩
  · intro hne
    rw [q2]
    exact hun hne
  · intro h0
    rw [q2]
    exact hid h0

/-- A cube without any coordinate (in particular none named `time`). -/
def wCubeNoTime : Cube :=
  { var_name := "v", standard_name := some "x", units := plainUnit "K",
    attributes := [], coords := [], ndim := 0 }

/-- Counterexample to C8 as stated.  The fixture specification
declares no coordinates, so the cube's coordinates match it exactly,
and the cube's units `K` are convertible to the declared units `K` —
yet `check_metadata` does not succeed: its final attachment step calls
`add_day_of_month(cube, 'time')`, which raises
`CoordinateNotFoundError` because the cube has no coordinate named
`time`, so `check_data` is never reached. -/
theorem claim_C8_counterexample :
    wCfgNoTimeSpec.cmor_var.coordinates = []
    ∧ wCfgNoTimeSpec.cmor_var.vunits = "K"
    ∧ unitsConvertible wCubeNoTime.units (get_effective_units wCfgNoTimeSpec) = true
    ∧ (checkMetadataRun wCfgNoTimeSpec wCubeNoTime).1
        = Except.error (PyExn.coordinateNotFoundError "time") := by
  refine ⟨rfl, rfl, by rfl', by rfl'⟩

/-- C8 (amended: the cube must also carry a coordinate named `time`,
otherwise `check_metadata` itself raises `CoordinateNotFoundError` in
its auxiliary-coordinate attachment and `check_data` is never
reached).  For every cube whose units are convertible to the
specification's effective units and whose coordinates match the
specification exactly (`Clean`, which includes carrying a `time`
coordinate): `check_metadata` followed by `check_data` succeeds, and
the returned cube's units equal the specification's effective declared
units whenever the specification declares units (and are untouched
when it declares none); the conversion step never consults
`automatic_fixes`. -/
theorem claim_C8 (cfg : CheckerConfig) (cube c1 : Cube) (s1 : CheckerState)
    (hclean : Clean cfg cube)
    (hrun1 : checkMetadataRun cfg cube = (Except.ok c1, s1)) :
    (∃ c2 s2, checkDataRun cfg c1 = (Except.ok c2, s2)
      ∧ (cfg.cmor_var.vunits ≠ "" → c2.units.uname = get_effective_units cfg)
      ∧ (cfg.cmor_var.vunits = "" → c2 = c1))
    ∧ (∀ b : Bool, convert_cube_units { cfg with automatic_fixes := b }
        = convert_cube_units cfg) := by
  constructor
  · obtain ⟨sf, hcm, herr, hext, hn1, hn2, hn3, hn4, hfx⟩ :=
      check_metadata_clean cfg cube hclean (initState cube) rfl rfl
    have hc1 : sf.cube = c1 := by
      unfold checkMetadataRun at hrun1
      rw [hcm] at hrun1
      simp at hrun1
      exact hrun1.1
    have hclean1 : Clean cfg c1 := by
      rw [← hc1]
      exact clean_ext cfg cube sf.cube hext hclean
    obtain ⟨sf2, hcd, herr2, hu, hid⟩ :=
      check_data_clean cfg c1 hclean1 (initState c1) rfl rfl
    refine ⟨sf2.cube, sf2, ?_, hu, hid⟩
    unfold checkDataRun
    rw [hcd]
  · intro b
    rfl

/-- Witness for C8: for the fixture specification (declared units `K`)
and the fixture cube, the metadata run returns normally and the
subsequent data run returns a cube whose units are the effective
declared units. -/
theorem claim_C8_witness :
    ∃ c2 s2, checkDataRun wCfg ((checkMetadataRun wCfg wCube).2.cube)
        = (Except.ok c2, s2)
      ∧ (wCfg.cmor_var.vunits ≠ "" → c2.units.uname = get_effective_units wCfg) := by
  have h := claim_C8 wCfg wCube (checkMetadataRun wCfg wCube).2.cube
    (checkMetadataRun wCfg wCube).2 wClean_wCfg_wCube (by rfl')
  obtain ⟨⟨c2, s2, h1, h2, h3⟩, hflag⟩ := h
  exact ⟨c2, s2, h1, h2⟩
